import Mathlib

/-!
Verification development for the flexprice usage-aggregation query compiler.

The repository contains two variants of the ClickHouse query builder:
the indexed builder in `internal/repository/clickhouse/builder/query_builder.go`
(placeholders carry explicit indices and every caller value is parameterized),
and a legacy builder embedded in `internal/temporal/models/plan.go`
(property names, group ids and priorities are interpolated literally and time
bounds are passed as pre-formatted strings).  Both are embedded below, the
first in namespace `builder`, the second in namespace `legacy`.

Strings are modelled by Lean `String` (a wrapper around `List Char`); all
string manipulation helpers used by the Go code (`strings.Join`,
`strings.Split`, `strings.TrimSpace`, `strings.TrimPrefix`, `fmt.Sprintf`
with `%d`/`%s`) are re-implemented structurally so that every definition is
executable by kernel reduction.
-/

/-- Decimal digit character for a value below ten, mirroring `fmt.Sprintf`. -/
def digitChar (n : Nat) : Char := Char.ofNat (48 + n)

/-- Fuel-driven accumulator producing the decimal digits of `n` (most
significant first), mirroring the output of Go's `%d` verb for naturals. -/
def natDigsAux : Nat → Nat → List Char → List Char
  | 0, _, acc => acc
  | fuel + 1, n, acc =>
    if n = 0 then acc else natDigsAux fuel (n / 10) (digitChar (n % 10) :: acc)

/-- Decimal digit list of a natural number (`"0"` for zero). -/
def natDigs (n : Nat) : List Char :=
  if n = 0 then ['0'] else natDigsAux (n + 1) n []

/-- Decimal rendering of a natural number, as `fmt.Sprintf("%d", n)`. -/
def natToStr (n : Nat) : String := ⟨natDigs n⟩

/-- Decimal rendering of an integer, as `fmt.Sprintf("%d", i)`. -/
def intToStr (i : Int) : String :=
  if i < 0 then "-" ++ natToStr i.natAbs else natToStr i.natAbs

/-- A numbered positional placeholder `?n`, as produced by
`fmt.Sprintf("?%d", n)` throughout the builder. -/
def ph (n : Nat) : String := "?" ++ natToStr n

/-- `strings.Join`: concatenate with a separator between elements. -/
def joinSep (sep : String) : List String → String
  | [] => ""
  | [s] => s
  | s :: rest => s ++ sep ++ joinSep sep rest

/-- Prefix test on character lists (structural re-implementation). -/
def listIsPfx : List Char → List Char → Bool
  | [], _ => true
  | _ :: _, [] => false
  | c :: cs, d :: ds => c = d && listIsPfx cs ds

/-- Substring test on character lists. -/
def listHasInfix : List Char → List Char → Bool
  | [], pat => pat.isEmpty
  | c :: cs, pat => listIsPfx pat (c :: cs) || listHasInfix cs pat

/-- Substring test on strings. -/
def strHasInfix (s pat : String) : Bool := listHasInfix s.data pat.data

/-- `strings.TrimPrefix`: drop a leading prefix when present. -/
def trimPfx (s pre : String) : String :=
  if listIsPfx pre.data s.data then ⟨s.data.drop pre.data.length⟩ else s

/-- The ASCII whitespace characters occurring in the builder's templates;
on these inputs this agrees with Go's Unicode `strings.TrimSpace`. -/
def isSpaceChar (c : Char) : Bool := c = ' ' || c = '\t' || c = '\n' || c = '\r'

/-- `strings.TrimSpace` (restricted to ASCII whitespace). -/
def trimSpace (s : String) : String :=
  ⟨((s.data.dropWhile isSpaceChar).reverse.dropWhile isSpaceChar).reverse⟩

/-- Splitter for `strings.Split(s, ",")`: cut at every comma. -/
def splitCommaAux : List Char → List Char → List String
  | [], cur => [⟨cur.reverse⟩]
  | c :: cs, cur =>
    if c = ',' then ⟨cur.reverse⟩ :: splitCommaAux cs [] else splitCommaAux cs (c :: cur)

/-- `strings.Split(s, ",")`. -/
def splitOnComma (s : String) : List String := splitCommaAux s.data []

/-- Scanner state machine extracting the numbered placeholders `?NNN` of a
statement, in textual order.  The accumulator holds the value of the digit
run currently being read after a `?`, together with a flag telling whether at
least one digit has been read (a bare `?` without digits is not a numbered
placeholder). -/
def phScanAux : List Char → Option (Nat × Bool) → List Nat
  | [], some (n, true) => [n]
  | [], _ => []
  | c :: cs, some (n, seen) =>
    if c.isDigit then phScanAux cs (some (10 * n + (c.toNat - 48), true))
    else if seen then n :: phScanAux cs (if c = '?' then some (0, false) else none)
    else phScanAux cs (if c = '?' then some (0, false) else none)
  | c :: cs, none => phScanAux cs (if c = '?' then some (0, false) else none)

/-- The list of numbered positional placeholders of a statement, in textual
order. -/
def phNums (s : String) : List Nat := phScanAux s.data none

/-- Calendar timestamp modelling Go's `time.Time` in UTC, at the millisecond
precision used by the builder.  The zero value is Go's zero time
(January 1, year 1, 00:00:00.000 UTC). -/
structure GoTime where
  year : Nat
  month : Nat
  day : Nat
  hour : Nat
  minute : Nat
  second : Nat
  millis : Nat
deriving DecidableEq

/-- Go's `time.Time.IsZero`. -/
def GoTime.isZero (t : GoTime) : Bool := t = ⟨1, 1, 1, 0, 0, 0, 0⟩

/-- Zero-padded decimal of width two, as Go's `"01"`-style layout fields. -/
def pad2 (n : Nat) : String := if n < 10 then "0" ++ natToStr n else natToStr n

/-- Zero-padded decimal of width three, as Go's `".000"` layout field. -/
def pad3 (n : Nat) : String :=
  if n < 10 then "00" ++ natToStr n else if n < 100 then "0" ++ natToStr n else natToStr n

/-- Zero-padded decimal of width four, as Go's `"2006"` layout field. -/
def pad4 (n : Nat) : String :=
  if n < 10 then "000" ++ natToStr n
  else if n < 100 then "00" ++ natToStr n
  else if n < 1000 then "0" ++ natToStr n
  else natToStr n

/-- `formatClickHouseDateTime` from the source: the fixed-precision millisecond
UTC text form `YYYY-MM-DD HH:MM:SS.mmm` (`t.UTC().Format("2006-01-02
15:04:05.000")`; `GoTime` values are already UTC instants). -/
def formatClickHouseDateTime (t : GoTime) : String :=
  pad4 t.year ++ "-" ++ pad2 t.month ++ "-" ++ pad2 t.day ++ " " ++
    pad2 t.hour ++ ":" ++ pad2 t.minute ++ ":" ++ pad2 t.second ++ "." ++ pad3 t.millis

/-- A bound query argument.  The Go slices are `[]interface{}`; the builder
only ever appends strings, `time.Time` values and integer priorities. -/
inductive Arg where
  | str : String → Arg
  | time : GoTime → Arg
  | int : Int → Arg
deriving DecidableEq

/-- Whether an argument is a store-native time value (a `time.Time`), as
opposed to a pre-formatted string rendering of a time. -/
def Arg.isNativeTime : Arg → Bool
  | .time _ => true
  | _ => false

/-- Execution context. Modelled from the spec: “an execution context exposing
tenant id and environment id lookups” — `types.GetTenantID` /
`types.GetEnvironmentID` live in the `types` package outside `src/`; an absent
value is the empty string, exactly as the builder tests it. -/
structure Context where
  tenantID : String
  environmentID : String
deriving DecidableEq

/-- `types.GetTenantID(ctx)`. -/
def getTenantID (ctx : Context) : String := ctx.tenantID

/-- `types.GetEnvironmentID(ctx)`. -/
def getEnvironmentID (ctx : Context) : String := ctx.environmentID

/-- Aggregation kind. Modelled from the spec: the enum COUNT, SUM, AVG,
COUNT_DISTINCT; the Go type `types.AggregationType` (outside `src/`) is a
string-backed type, so values other than the four constants exist and reach
the builder's `switch` unhandled. Only distinctness of the constants matters
below. -/
def AggregationType : Type := String
deriving instance DecidableEq for AggregationType

/-- `types.AggregationCount`. -/
def AggregationCount : AggregationType := "COUNT"

/-- `types.AggregationSum`. -/
def AggregationSum : AggregationType := "SUM"

/-- `types.AggregationAvg`. -/
def AggregationAvg : AggregationType := "AVG"

/-- `types.AggregationCountUnique`. -/
def AggregationCountUnique : AggregationType := "COUNT_UNIQUE"

/-- `events.UsageParams` (the UsageQuery of the spec). Modelled from the spec
and the builder's uses: the fields the two builders read. `filters` models the
Go map `map[string][]string`; a Go map has no specified iteration order, so
the entry list order stands for the order in which one particular run of
`range` happens to yield the entries (a `nil` map and an empty map both yield
no entries and are both modelled by `[]`). -/
structure UsageParams where
  eventName : String
  propertyName : String
  aggregationType : AggregationType
  startTime : GoTime
  endTime : GoTime
  externalCustomerID : String
  customerID : String
  filters : List (String × List String)

/-- `events.FilterGroup`. Modelled from the spec: identifier, integer
priority (higher wins), and a filter map of the same shape as
`UsageParams.filters`. -/
structure FilterGroup where
  id : String
  priority : Int
  filters : List (String × List String)

/-- `ParameterizedQuery` from the source. -/
structure ParameterizedQuery where
  query : String
  args : List Arg
deriving DecidableEq

/-- `CTEComponent` from the source. -/
structure CTEComponent where
  name : String
  query : String
  args : List Arg
deriving DecidableEq

/-- The mutable state of a `QueryBuilder` (the `params` field, written but
never read by the builder, is omitted). -/
structure QueryBuilderState where
  baseQuery : ParameterizedQuery
  filterQuery : ParameterizedQuery
  matchedQuery : ParameterizedQuery
  finalQuery : ParameterizedQuery
  cteComponents : List CTEComponent
deriving DecidableEq

/-- `NewQueryBuilder`. -/
def NewQueryBuilder : QueryBuilderState :=
  ⟨⟨"", []⟩, ⟨"", []⟩, ⟨"", []⟩, ⟨"", []⟩, []⟩

/-- The `matchedQuery` constant emitted by `WithFilterGroups`, identical in
both builder variants: per-row expansion of the match triples and the
`argMax` winner resolution. -/
def matchedEventsQuery : String :=
  "matched_events AS (\n\t\tSELECT\n\t\t\tid,\n\t\t\ttimestamp,\n\t\t\tproperties,\n\t\t\tarrayJoin(group_matches) as matched_group,\n\t\t\tmatched_group.1 as group_id,\n\t\t\tmatched_group.2 as total_filters,\n\t\t\tmatched_group.3 as matches\n\t\tFROM filter_matches\n\t),\n\tbest_matches AS (\n\t\tSELECT\n\t\t\tid,\n\t\t\tproperties,\n\t\t\targMax(group_id, (total_filters, group_id)) as best_match_group\n\t\tFROM matched_events\n\t\tWHERE matches = 1\n\t\tGROUP BY id, properties\n\t)"

/-- The comma-split re-packaging of `matchedEventsQuery` into CTE components
performed at the end of `WithFilterGroups` (identical in both variants):
`strings.Split` on every comma, `TrimSpace`, drop empties, strip the
`matched_events AS (` header from the first piece. -/
def matchedCTEComponents : List CTEComponent :=
  (splitOnComma matchedEventsQuery).enum.filterMap (fun p =>
    let cte := trimSpace p.2
    if cte = "" then none
    else some ⟨"matched_cte_" ++ natToStr p.1,
      if p.1 = 0 then trimPfx cte "matched_events AS (" else trimSpace cte, []⟩)

namespace builder

/-! The indexed builder:
`src/internal/repository/clickhouse/builder/query_builder.go`. -/

/-- `getDeduplicationKey`: the columns used for deduplication. -/
def getDeduplicationKey : String := "tenant_id, environment_id, timestamp, id"

/-- The filter-condition loop of `WithBaseFilters` (lines 93–118), also the
inner per-group loop of `WithFilterGroups` (lines 161–185), whose Go code is
identical: for each map entry in iteration order, skip empty value lists; a
single value yields an equality on `JSONExtractString` with the property name
and the value both parameterized (`?i`, `?i+1`, arguments `property, value`);
several values yield an IN with the property name at `?i` and one placeholder
per value, the arguments being the values first and the property name last.
Returns (conditions, arguments, next argument index). -/
def filterLoop : Nat → List (String × List String) → List String × List Arg × Nat
  | i, [] => ([], [], i)
  | i, (property, values) :: rest =>
    match values with
    | [] => filterLoop i rest
    | [v] =>
      let cond := "JSONExtractString(properties, " ++ ph i ++ ") = " ++ ph (i + 1)
      let r := filterLoop (i + 2) rest
      (cond :: r.1, Arg.str property :: Arg.str v :: r.2.1, r.2.2)
    | v1 :: v2 :: vs =>
      let vals := v1 :: v2 :: vs
      let phs := (List.range vals.length).map (fun j => ph (i + j + 1))
      let cond := "JSONExtractString(properties, " ++ ph i ++ ") IN (" ++ joinSep "," phs ++ ")"
      let r := filterLoop (i + vals.length + 1) rest
      (cond :: r.1, vals.map Arg.str ++ [Arg.str property] ++ r.2.1, r.2.2)

/-- `parseTimeConditionsWithIndex` (lines 334–352): an inclusive lower bound
when the start time is set, an exclusive upper bound when the end time is
set, both parameterized with explicit indices, the bounds passed as native
time values. -/
def parseTimeConditionsWithIndex (params : UsageParams) (startIndex : Nat) :
    List String × List Arg × Nat :=
  let s :=
    if params.startTime.isZero then ([], [], startIndex)
    else (["timestamp >= toDateTime64(" ++ ph startIndex ++ ", 3)"],
      [Arg.time params.startTime], startIndex + 1)
  let e :=
    if params.endTime.isZero then (([] : List String), ([] : List Arg), s.2.2)
    else (["timestamp < toDateTime64(" ++ ph s.2.2 ++ ", 3)"],
      [Arg.time params.endTime], s.2.2 + 1)
  (s.1 ++ e.1, s.2.1 ++ e.2.1, e.2.2)

/-- The condition/argument accumulation of `WithBaseFilters` (lines 48–118):
event name (always), tenant id and environment id (when the context yields a
non-empty value), time bounds, customer ids (when non-empty), then the
property filters. -/
def baseConditionsArgs (ctx : Context) (params : UsageParams) :
    List String × List Arg × Nat :=
  let c1 := (["event_name = " ++ ph 1], [Arg.str params.eventName], 2)
  let tenantID := getTenantID ctx
  let c2 :=
    if tenantID ≠ "" then
      (c1.1 ++ ["tenant_id = " ++ ph c1.2.2], c1.2.1 ++ [Arg.str tenantID], c1.2.2 + 1)
    else c1
  let environmentID := getEnvironmentID ctx
  let c3 :=
    if environmentID ≠ "" then
      (c2.1 ++ ["environment_id = " ++ ph c2.2.2], c2.2.1 ++ [Arg.str environmentID],
        c2.2.2 + 1)
    else c2
  let t := parseTimeConditionsWithIndex params c3.2.2
  let c4 := (c3.1 ++ t.1, c3.2.1 ++ t.2.1, t.2.2)
  let c5 :=
    if params.externalCustomerID ≠ "" then
      (c4.1 ++ ["external_customer_id = " ++ ph c4.2.2],
        c4.2.1 ++ [Arg.str params.externalCustomerID], c4.2.2 + 1)
    else c4
  let c6 :=
    if params.customerID ≠ "" then
      (c5.1 ++ ["customer_id = " ++ ph c5.2.2], c5.2.1 ++ [Arg.str params.customerID],
        c5.2.2 + 1)
    else c5
  let f := filterLoop c6.2.2 params.filters
  (c6.1 ++ f.1, c6.2.1 ++ f.2.1, f.2.2)

/-- The `base_events` CTE text for a given WHERE clause (the raw-string
template of lines 123–131). -/
def baseQueryText (whereClause : String) : String :=
  "base_events AS (\n\t\t\tSELECT * FROM (\n\t\t\t\tSELECT DISTINCT ON (" ++
    getDeduplicationKey ++ ") * FROM events WHERE " ++ whereClause ++
    " ORDER BY " ++ getDeduplicationKey ++ " DESC\n\t\t\t)\n\t\t)"

/-- `WithBaseFilters` (lines 48–145). -/
def WithBaseFilters (ctx : Context) (params : UsageParams) (qb : QueryBuilderState) :
    QueryBuilderState :=
  let ca := baseConditionsArgs ctx params
  let whereClause := joinSep " AND " ca.1
  let query := baseQueryText whereClause
  { qb with
    baseQuery := ⟨query, ca.2.1⟩
    cteComponents := qb.cteComponents ++ [⟨"base_events", query, ca.2.1⟩] }

/-- The per-group loop of `WithFilterGroups` (lines 147–209): each group's
filter map is compiled by the same loop as the base filters; a group with at
least one condition contributes the tuple `(?a, ?a+1, (conds))` with the
group id and priority parameterized and appended before the condition
arguments; a group with no condition contributes the constant-true tuple
`(?a, ?a+1, 1)`.  Returns (tuple fragments, arguments). -/
def groupsLoop : Nat → List FilterGroup → List String × List Arg
  | _, [] => ([], [])
  | i, g :: rest =>
    let c := filterLoop i g.filters
    if c.1.isEmpty then
      let fc := "(" ++ ph c.2.2 ++ ", " ++ ph (c.2.2 + 1) ++ ", 1)"
      let r := groupsLoop (c.2.2 + 2) rest
      (fc :: r.1, Arg.str g.id :: Arg.int g.priority :: r.2)
    else
      let fc := "(" ++ ph c.2.2 ++ ", " ++ ph (c.2.2 + 1) ++ ", (" ++
        joinSep " AND " c.1 ++ "))"
      let r := groupsLoop (c.2.2 + 2) rest
      (fc :: r.1, Arg.str g.id :: Arg.int g.priority :: (c.2.1 ++ r.2))

/-- The `filter_matches` CTE text for the joined tuple fragments (the
raw-string template of lines 211–222). -/
def filterQueryText (joined : String) : String :=
  "filter_matches AS (\n\t\tSELECT \n\t\t\tid,\n\t\t\ttimestamp,\n\t\t\tproperties,\n\t\t\tarrayMap(x -> (\n\t\t\t\tx.1,\n\t\t\t\tx.2,\n\t\t\t\tx.3\n\t\t\t), [" ++
    joined ++ "]) as group_matches\n\t\tFROM base_events\n\t)"

/-- `WithFilterGroups` (lines 147–280): a no-op on an empty group list;
otherwise emits the `filter_matches` CTE, the matched/best-matches constant,
and the comma-split CTE components. -/
def WithFilterGroups (groups : List FilterGroup) (qb : QueryBuilderState) :
    QueryBuilderState :=
  if groups.isEmpty then qb
  else
    let r := groupsLoop 1 groups
    let query := filterQueryText (joinSep ",\n\t\t\t" r.1)
    { qb with
      filterQuery := ⟨query, r.2⟩
      matchedQuery := ⟨matchedEventsQuery, []⟩
      cteComponents := qb.cteComponents ++ [⟨"filter_matches", query, r.2⟩] ++
        matchedCTEComponents }

/-- The final SELECT text for a given aggregation clause (line 304). -/
def finalQueryText (aggClause : String) : String :=
  "SELECT best_match_group as filter_group_id, " ++ aggClause ++
    " as value FROM best_matches GROUP BY best_match_group ORDER BY best_match_group"

/-- `WithAggregation` (lines 282–312): the switch has no default case and no
error path — an unrecognised kind leaves the aggregation clause empty and the
fragment is emitted regardless; COUNT ignores the property name; SUM, AVG and
COUNT_UNIQUE parameterize it (even when empty). -/
def WithAggregation (aggType : AggregationType) (propertyName : String)
    (qb : QueryBuilderState) : QueryBuilderState :=
  let c : String × List Arg :=
    if aggType = AggregationCount then ("COUNT(*)", [])
    else if aggType = AggregationSum then
      ("SUM(CAST(JSONExtractString(properties, " ++ ph 1 ++ ") AS Float64))",
        [Arg.str propertyName])
    else if aggType = AggregationAvg then
      ("AVG(CAST(JSONExtractString(properties, " ++ ph 1 ++ ") AS Float64))",
        [Arg.str propertyName])
    else if aggType = AggregationCountUnique then
      ("COUNT(DISTINCT JSONExtractString(properties, " ++ ph 1 ++ "))",
        [Arg.str propertyName])
    else ("", [])
  { qb with finalQuery := ⟨finalQueryText c.1, c.2⟩ }

/-- `Build` (lines 314–332): concatenate the component texts with `,\n` after
`WITH `, append the final query, and concatenate all argument slices in the
same order. -/
def Build (qb : QueryBuilderState) : String × List Arg :=
  let cteParts := qb.cteComponents.map (fun c => c.query)
  let ctePart := joinSep ",\n" cteParts
  ("WITH " ++ ctePart ++ "\n" ++ qb.finalQuery.query,
    (qb.cteComponents.map (fun c => c.args)).flatten ++ qb.finalQuery.args)

end builder

namespace legacy

/-! The legacy builder embedded in `src/internal/temporal/models/plan.go`
(its third document, `package builder`). -/

/-- `getDeduplicationKey` (plan.go lines 1627–1630). -/
def getDeduplicationKey : String := "tenant_id, environment_id, timestamp, id"

/-- The filter-condition loop of the legacy `WithBaseFilters` (lines
1677–1701), also its per-group loop (lines 1744–1767): the property name is
interpolated literally between single quotes; a single value consumes one
placeholder, several values one placeholder each; only the values are
parameterized. -/
def filterLoop : Nat → List (String × List String) → List String × List Arg × Nat
  | i, [] => ([], [], i)
  | i, (property, values) :: rest =>
    match values with
    | [] => filterLoop i rest
    | [v] =>
      let cond := "JSONExtractString(properties, '" ++ property ++ "') = " ++ ph i
      let r := filterLoop (i + 1) rest
      (cond :: r.1, Arg.str v :: r.2.1, r.2.2)
    | v1 :: v2 :: vs =>
      let vals := v1 :: v2 :: vs
      let phs := (List.range vals.length).map (fun j => ph (i + j))
      let cond := "JSONExtractString(properties, '" ++ property ++ "') IN (" ++
        joinSep "," phs ++ ")"
      let r := filterLoop (i + vals.length) rest
      (cond :: r.1, vals.map Arg.str ++ r.2.1, r.2.2)

/-- `parseTimeConditions` (lines 1914–1929): unnumbered `?` placeholders, and
the bounds passed as the pre-formatted millisecond UTC strings produced by
`formatClickHouseDateTime`. -/
def parseTimeConditions (params : UsageParams) : List String × List Arg :=
  let s :=
    if params.startTime.isZero then (([] : List String), ([] : List Arg))
    else (["timestamp >= toDateTime64(?, 3)"],
      [Arg.str (formatClickHouseDateTime params.startTime)])
  let e :=
    if params.endTime.isZero then (([] : List String), ([] : List Arg))
    else (["timestamp < toDateTime64(?, 3)"],
      [Arg.str (formatClickHouseDateTime params.endTime)])
  (s.1 ++ e.1, s.2 ++ e.2)

/-- The condition/argument accumulation of the legacy `WithBaseFilters`
(lines 1632–1701). -/
def baseConditionsArgs (ctx : Context) (params : UsageParams) :
    List String × List Arg × Nat :=
  let c1 := (["event_name = " ++ ph 1], [Arg.str params.eventName], 2)
  let tenantID := getTenantID ctx
  let c2 :=
    if tenantID ≠ "" then
      (c1.1 ++ ["tenant_id = " ++ ph c1.2.2], c1.2.1 ++ [Arg.str tenantID], c1.2.2 + 1)
    else c1
  let environmentID := getEnvironmentID ctx
  let c3 :=
    if environmentID ≠ "" then
      (c2.1 ++ ["environment_id = " ++ ph c2.2.2], c2.2.1 ++ [Arg.str environmentID],
        c2.2.2 + 1)
    else c2
  let t := parseTimeConditions params
  let c4 := (c3.1 ++ t.1, c3.2.1 ++ t.2, c3.2.2 + t.2.length)
  let c5 :=
    if params.externalCustomerID ≠ "" then
      (c4.1 ++ ["external_customer_id = " ++ ph c4.2.2],
        c4.2.1 ++ [Arg.str params.externalCustomerID], c4.2.2 + 1)
    else c4
  let c6 :=
    if params.customerID ≠ "" then
      (c5.1 ++ ["customer_id = " ++ ph c5.2.2], c5.2.1 ++ [Arg.str params.customerID],
        c5.2.2 + 1)
    else c5
  let f := filterLoop c6.2.2 params.filters
  (c6.1 ++ f.1, c6.2.1 ++ f.2.1, f.2.2)

/-- The `base_events` CTE text (the raw-string template of lines 1706–1714,
identical to the indexed variant's). -/
def baseQueryText (whereClause : String) : String :=
  "base_events AS (\n\t\t\tSELECT * FROM (\n\t\t\t\tSELECT DISTINCT ON (" ++
    getDeduplicationKey ++ ") * FROM events WHERE " ++ whereClause ++
    " ORDER BY " ++ getDeduplicationKey ++ " DESC\n\t\t\t)\n\t\t)"

/-- The legacy `WithBaseFilters` (lines 1632–1728). -/
def WithBaseFilters (ctx : Context) (params : UsageParams) (qb : QueryBuilderState) :
    QueryBuilderState :=
  let ca := baseConditionsArgs ctx params
  let whereClause := joinSep " AND " ca.1
  let query := baseQueryText whereClause
  { qb with
    baseQuery := ⟨query, ca.2.1⟩
    cteComponents := qb.cteComponents ++ [⟨"base_events", query, ca.2.1⟩] }

/-- The per-group loop of the legacy `WithFilterGroups` (lines 1739–1789):
the group id and the priority are interpolated literally into the tuple
fragment (`('id', priority, (conds))`, or `('id', priority, 1)` for a group
without conditions); only the filter values are parameterized. -/
def groupsLoop : Nat → List FilterGroup → List String × List Arg
  | _, [] => ([], [])
  | i, g :: rest =>
    let c := filterLoop i g.filters
    if c.1.isEmpty then
      let fc := "('" ++ g.id ++ "', " ++ intToStr g.priority ++ ", 1)"
      let r := groupsLoop c.2.2 rest
      (fc :: r.1, r.2)
    else
      let fc := "('" ++ g.id ++ "', " ++ intToStr g.priority ++ ", (" ++
        joinSep " AND " c.1 ++ "))"
      let r := groupsLoop c.2.2 rest
      (fc :: r.1, c.2.1 ++ r.2)

/-- The legacy `WithFilterGroups` (lines 1730–1860). -/
def WithFilterGroups (groups : List FilterGroup) (qb : QueryBuilderState) :
    QueryBuilderState :=
  if groups.isEmpty then qb
  else
    let r := groupsLoop 1 groups
    let query := builder.filterQueryText (joinSep ",\n\t\t\t" r.1)
    { qb with
      filterQuery := ⟨query, r.2⟩
      matchedQuery := ⟨matchedEventsQuery, []⟩
      cteComponents := qb.cteComponents ++ [⟨"filter_matches", query, r.2⟩] ++
        matchedCTEComponents }

/-- The legacy `WithAggregation` (lines 1862–1892), textually identical to
the indexed variant's. -/
def WithAggregation (aggType : AggregationType) (propertyName : String)
    (qb : QueryBuilderState) : QueryBuilderState :=
  builder.WithAggregation aggType propertyName qb

/-- The legacy `Build` (lines 1894–1912): unlike the indexed variant it
re-wraps every component as `name AS (query)`. -/
def Build (qb : QueryBuilderState) : String × List Arg :=
  let cteParts := qb.cteComponents.map (fun c => c.name ++ " AS (" ++ c.query ++ ")")
  let ctePart := joinSep ",\n" cteParts
  ("WITH " ++ ctePart ++ "\n" ++ qb.finalQuery.query,
    (qb.cteComponents.map (fun c => c.args)).flatten ++ qb.finalQuery.args)

end legacy

/-- The condition text emitted by `builder.filterLoop` for a filter entry with
`k` values starting at argument index `i`.  It depends only on `i` and `k`:
neither the property name nor any value occurs in it (this is the
no-literal-injection shape of the indexed builder). -/
def builderCondText (i k : Nat) : String :=
  if k = 1 then "JSONExtractString(properties, " ++ ph i ++ ") = " ++ ph (i + 1)
  else "JSONExtractString(properties, " ++ ph i ++ ") IN (" ++
    joinSep "," ((List.range k).map (fun j => ph (i + j + 1))) ++ ")"

/-- The value counts of the non-empty filter entries, in iteration order: the
only filter data the indexed builder's statement text depends on. -/
def countsOf (fs : List (String × List String)) : List Nat :=
  fs.filterMap (fun pv => if pv.2.isEmpty then none else some pv.2.length)

/-- Condition texts of the filter section as a function of the counts alone. -/
def shapeCondsLoop : Nat → List Nat → List String × Nat
  | i, [] => ([], i)
  | i, k :: rest =>
    let r := shapeCondsLoop (i + k + 1) rest
    (builderCondText i k :: r.1, r.2)

/-- The structural shape of a base-filter compilation: which optional
conditions are present and how many values each filter entry has.  Two inputs
with the same shape are indistinguishable in the indexed builder's statement
text. -/
structure BaseShape where
  tenant : Bool
  env : Bool
  hasStart : Bool
  hasEnd : Bool
  ext : Bool
  cust : Bool
  counts : List Nat
deriving DecidableEq

/-- The shape of a context/params pair. -/
def baseShapeOf (ctx : Context) (params : UsageParams) : BaseShape :=
  ⟨!(ctx.tenantID == ""), !(ctx.environmentID == ""), !params.startTime.isZero,
    !params.endTime.isZero, !(params.externalCustomerID == ""),
    !(params.customerID == ""), countsOf params.filters⟩

/-- The base-fragment condition list as a function of the shape alone. -/
def shapeBaseConds (sh : BaseShape) : List String :=
  let c1 : List String × Nat := (["event_name = " ++ ph 1], 2)
  let c2 := if sh.tenant then (c1.1 ++ ["tenant_id = " ++ ph c1.2], c1.2 + 1) else c1
  let c3 := if sh.env then (c2.1 ++ ["environment_id = " ++ ph c2.2], c2.2 + 1) else c2
  let c4 :=
    if sh.hasStart then
      (c3.1 ++ ["timestamp >= toDateTime64(" ++ ph c3.2 ++ ", 3)"], c3.2 + 1)
    else c3
  let c5 :=
    if sh.hasEnd then
      (c4.1 ++ ["timestamp < toDateTime64(" ++ ph c4.2 ++ ", 3)"], c4.2 + 1)
    else c4
  let c6 := if sh.ext then (c5.1 ++ ["external_customer_id = " ++ ph c5.2], c5.2 + 1) else c5
  let c7 := if sh.cust then (c6.1 ++ ["customer_id = " ++ ph c6.2], c6.2 + 1) else c6
  c7.1 ++ (shapeCondsLoop c7.2 sh.counts).1

/-- The base-fragment text as a function of the shape alone. -/
def shapeBaseText (sh : BaseShape) : String :=
  builder.baseQueryText (joinSep " AND " (shapeBaseConds sh))

/-- The argument block contributed by one filter entry of the indexed
builder: `[property, value]` for a single value, the values followed by the
property name for several. -/
def filterArgBlock (pv : String × List String) : List Arg :=
  match pv.2 with
  | [] => []
  | [v] => [Arg.str pv.1, Arg.str v]
  | v1 :: v2 :: vs => (v1 :: v2 :: vs).map Arg.str ++ [Arg.str pv.1]

/-- The filter arguments of the indexed builder, per entry in iteration
order. -/
def filterArgsSpec (fs : List (String × List String)) : List Arg :=
  fs.flatMap filterArgBlock

/-- The full expected argument list of the indexed builder's base fragment,
written out in emission order following the spec's description of the
conditions (event name, tenant, environment, time bounds, customer ids,
filters). -/
def expectedBaseArgs (ctx : Context) (params : UsageParams) : List Arg :=
  [Arg.str params.eventName] ++
  (if ctx.tenantID ≠ "" then [Arg.str ctx.tenantID] else []) ++
  (if ctx.environmentID ≠ "" then [Arg.str ctx.environmentID] else []) ++
  (if params.startTime.isZero then [] else [Arg.time params.startTime]) ++
  (if params.endTime.isZero then [] else [Arg.time params.endTime]) ++
  (if params.externalCustomerID ≠ "" then [Arg.str params.externalCustomerID] else []) ++
  (if params.customerID ≠ "" then [Arg.str params.customerID] else []) ++
  filterArgsSpec params.filters

/-- A raw event row of the `events` table: the four deduplication-key columns
named by `getDeduplicationKey`, plus the payload the query stages read. -/
structure EventRow where
  tenantId : String
  environmentId : String
  timestamp : GoTime
  id : String
  eventName : String
  properties : List (String × String)
deriving DecidableEq

/-- The deduplication key of a row: the column tuple
`(tenant_id, environment_id, timestamp, id)` of `getDeduplicationKey`. -/
def EventRow.dedupKeyOf (r : EventRow) : String × String × GoTime × String :=
  (r.tenantId, r.environmentId, r.timestamp, r.id)

/-- One representative row per deduplication key, first occurrence kept.
Modelled from the semantics of the emitted
`SELECT DISTINCT ON (tenant_id, environment_id, timestamp, id)` operator of
the base fragment: the execution engine collapses all rows sharing the key
into a single representative. -/
def dedupRowsAux : List (String × String × GoTime × String) → List EventRow → List EventRow
  | _, [] => []
  | seen, r :: rest =>
    if r.dedupKeyOf ∈ seen then dedupRowsAux seen rest
    else r :: dedupRowsAux (r.dedupKeyOf :: seen) rest

/-- Deduplicate a row list by the deduplication key. -/
def dedupRows (rows : List EventRow) : List EventRow := dedupRowsAux [] rows

/-- Modelled from the semantics of the emitted `JSONExtractString(properties,
p)` expression: the value stored under `p`, or the empty string when the
property is absent. -/
def JSONExtractString (props : List (String × String)) (p : String) : String :=
  match props.lookup p with
  | some v => v
  | none => ""

/-- Modelled from the semantics of the per-group condition emitted by
`WithFilterGroups`: every filter entry with at least one allowed value must
match the extracted property (equality for one value, membership for
several); entries with no values are skipped by the builder, and a group
whose map yields no condition compiles to the constant `1` (always true). -/
def evalGroupFilters (filters : List (String × List String)) (row : EventRow) : Bool :=
  filters.all (fun pv => pv.2.isEmpty || pv.2.contains (JSONExtractString row.properties pv.1))

/-- One tuple of the `group_matches` array emitted per group:
`(group_id, priority, match)` — the columns named `group_id`,
`total_filters` and `matches` in the `matched_events` stage. -/
structure GroupTriple where
  id : String
  priority : Int
  isMatch : Bool
deriving DecidableEq

/-- The per-row triple array, one triple per group in group order, as built
by the `arrayMap` of the `filter_matches` stage. -/
def groupTriples (groups : List FilterGroup) (row : EventRow) : List GroupTriple :=
  groups.map (fun g => ⟨g.id, g.priority, evalGroupFilters g.filters row⟩)

/-- Strict lexicographic comparison on `(priority, group id)`: the order in
which the emitted `argMax(group_id, (total_filters, group_id))` compares its
key tuples (priority first, then the identifier). -/
def pairLt (a b : Int × String) : Prop := a.1 < b.1 ∨ (a.1 = b.1 ∧ a.2 < b.2)

instance (a b : Int × String) : Decidable (pairLt a b) := by
  unfold pairLt; infer_instance

/-- Maximum accumulator over the key tuples of the remaining triples. -/
def bestMatchAux : Int × String → List GroupTriple → Int × String
  | best, [] => best
  | best, t :: rest =>
    bestMatchAux (if pairLt best (t.priority, t.id) then (t.priority, t.id) else best) rest

/-- Modelled from the semantics of the emitted `best_matches` stage:
`argMax(group_id, (total_filters, group_id))` over the rows with
`matches = 1` — the group id of the maximal (priority, id) pair among the
matching triples, or no winner when no triple matches. -/
def bestMatchGroup (ts : List GroupTriple) : Option String :=
  match ts.filter (fun t => t.isMatch) with
  | [] => none
  | t :: rest => some (bestMatchAux (t.priority, t.id) rest).2

/-- The failing input for claim C1: event name `e`, a context yielding tenant
id `t1` and no environment id, no time bounds, no customer ids, no property
filters, one filter group `{id: g, priority: 1, filters: {p: [v]}}`, COUNT
aggregation. -/
def c1Params : UsageParams :=
  ⟨"e", "", AggregationCount, ⟨1, 1, 1, 0, 0, 0, 0⟩, ⟨1, 1, 1, 0, 0, 0, 0⟩, "", "", []⟩

/-- The compiled output of the indexed builder at the C1 failing input. -/
def c1Output : String × List Arg :=
  builder.Build (builder.WithAggregation AggregationCount ""
    (builder.WithFilterGroups [⟨"g", 1, [("p", ["v"])]⟩]
      (builder.WithBaseFilters ⟨"t1", ""⟩ c1Params NewQueryBuilder)))

/-- The legacy builder's base fragment for the C2 counterexample input: one
property filter `{region: [x]}`, empty context, no time bounds. -/
def c2LegacyQuery : ParameterizedQuery :=
  (legacy.WithBaseFilters ⟨"", ""⟩
    ⟨"e", "", AggregationCount, ⟨1, 1, 1, 0, 0, 0, 0⟩, ⟨1, 1, 1, 0, 0, 0, 0⟩, "", "",
      [("region", ["x"])]⟩ NewQueryBuilder).baseQuery

/-- The indexed builder's base fragment for the C2 counterexample input: one
property filter `{region: [us-east-1, us-west-1]}`, empty context, no time
bounds. -/
def c2IndexedBase : ParameterizedQuery :=
  (builder.WithBaseFilters ⟨"", ""⟩
    ⟨"api_call", "", AggregationCount, ⟨1, 1, 1, 0, 0, 0, 0⟩, ⟨1, 1, 1, 0, 0, 0, 0⟩, "", "",
      [("region", ["us-east-1", "us-west-1"])]⟩ NewQueryBuilder).baseQuery

/-- The legacy condition compiler's output for a single-value filter entry
`{region: [x]}` entered at argument index 2. -/
def c3LegacyCond : List String × List Arg × Nat := legacy.filterLoop 2 [("region", ["x"])]

/-- The fragment emitted for an aggregation kind outside the enum. -/
def c5Unknown : ParameterizedQuery :=
  (builder.WithAggregation "TOTAL" "" NewQueryBuilder).finalQuery

/-- The spec's tie-free scenario row for the C4 witness. -/
def c4Row : EventRow :=
  ⟨"t", "e", ⟨2024, 1, 1, 0, 0, 0, 0⟩, "id1", "ev", [("tier", "gold")]⟩

/-- The spec's scenario groups for the C4 witness: both match the row,
priorities 2 and 1. -/
def c4Groups : List FilterGroup :=
  [⟨"g1", 2, [("tier", ["gold"])]⟩, ⟨"g2", 1, [("tier", ["gold"])]⟩]

/-- T0 of the C6 scenario. -/
def c6T0 : GoTime := ⟨2024, 1, 1, 0, 0, 0, 0⟩

/-- T1 of the C6 scenario. -/
def c6T1 : GoTime := ⟨2024, 2, 1, 0, 0, 0, 0⟩

/-- The compiled output of the C6 scenario: event `api_call`, filters
`{region: [us-east-1, us-west-1]}`, window [T0, T1), COUNT aggregation, an
empty filter-group list, empty context. -/
def c6Output : String × List Arg :=
  builder.Build (builder.WithAggregation AggregationCount ""
    (builder.WithFilterGroups []
      (builder.WithBaseFilters ⟨"", ""⟩
        ⟨"api_call", "", AggregationCount, c6T0, c6T1, "", "",
          [("region", ["us-east-1", "us-west-1"])]⟩ NewQueryBuilder)))

/-- A concrete event row for the C7 witness. -/
def c7Row : EventRow := ⟨"t1", "e1", ⟨2024, 1, 1, 0, 0, 0, 0⟩, "ev1", "api_call", []⟩

/-- The C8 counterexample input: start time 2024-01-01 00:00:00 UTC set, no
end time. -/
def c8Params : UsageParams :=
  ⟨"e", "", AggregationCount, ⟨2024, 1, 1, 0, 0, 0, 0⟩, ⟨1, 1, 1, 0, 0, 0, 0⟩, "", "", []⟩

/-- One iteration order of the two-property filter map `{a: [v], b: [w]}`. -/
def c9FiltersA : List (String × List String) := [("a", ["v"]), ("b", ["w"])]

/-- The other iteration order of the same Go map. -/
def c9FiltersB : List (String × List String) := [("b", ["w"]), ("a", ["v"])]

/-- The C9 query body around a given filter-map iteration order. -/
def c9Params (fs : List (String × List String)) : UsageParams :=
  ⟨"e", "", AggregationCount, ⟨1, 1, 1, 0, 0, 0, 0⟩, ⟨1, 1, 1, 0, 0, 0, 0⟩, "", "", fs⟩

/-! Infrastructure lemmas: decimal rendering, placeholder scanning, string
decomposition. -/

/-- Digit-run value accumulator matching the scanner's arithmetic. -/
def digsVal (a : Nat) (ds : List Char) : Nat :=
  ds.foldl (fun x c => 10 * x + (c.toNat - 48)) a

theorem strData_append (a b : String) : (a ++ b).data = a.data ++ b.data := rfl

theorem digitChar_isDigit {d : Nat} (h : d < 10) : (digitChar d).isDigit = true := by
  interval_cases d <;> decide

theorem digitChar_toNat {d : Nat} (h : d < 10) : (digitChar d).toNat = 48 + d := by
  interval_cases d <;> decide

theorem natDigsAux_append (fuel : Nat) :
    ∀ n acc, natDigsAux fuel n acc = natDigsAux fuel n [] ++ acc := by
  induction fuel with
  | zero => intro n acc; simp [natDigsAux]
  | succ f ih =>
    intro n acc
    by_cases h : n = 0
    · simp [natDigsAux, h]
    · simp only [natDigsAux, h, if_false]
      rw [ih (n / 10) (digitChar (n % 10) :: acc), ih (n / 10) [digitChar (n % 10)]]
      simp

theorem natDigsAux_digits (fuel : Nat) :
    ∀ n c, c ∈ natDigsAux fuel n [] → c.isDigit = true := by
  induction fuel with
  | zero => intro n c hc; simp [natDigsAux] at hc
  | succ f ih =>
    intro n c hc
    by_cases h : n = 0
    · simp [natDigsAux, h] at hc
    · rw [natDigsAux, if_neg h, natDigsAux_append] at hc
      rcases List.mem_append.1 hc with h1 | h1
      · exact ih _ _ h1
      · rcases List.mem_singleton.1 h1 with rfl
        exact digitChar_isDigit (Nat.mod_lt _ (by omega))

theorem natDigsAux_ne_nil (fuel n : Nat) (hn : n ≠ 0) (hf : fuel ≠ 0) :
    natDigsAux fuel n [] ≠ [] := by
  match fuel with
  | 0 => exact absurd rfl hf
  | f + 1 =>
    rw [natDigsAux, if_neg hn, natDigsAux_append]
    simp

theorem digsVal_append (a : Nat) (xs ys : List Char) :
    digsVal a (xs ++ ys) = digsVal (digsVal a xs) ys := by
  simp [digsVal, List.foldl_append]

theorem natDigsAux_val (fuel : Nat) :
    ∀ n a, n ≤ fuel →
      digsVal a (natDigsAux fuel n []) =
        a * 10 ^ (natDigsAux fuel n []).length + n := by
  induction fuel with
  | zero =>
    intro n a hn
    interval_cases n
    simp [natDigsAux, digsVal]
  | succ f ih =>
    intro n a hn
    by_cases h : n = 0
    · simp [natDigsAux, h, digsVal]
    · rw [natDigsAux, if_neg h, natDigsAux_append, digsVal_append]
      have hdiv : n / 10 ≤ f := by
        have h1 : n / 10 < n := Nat.div_lt_self (by omega) (by omega)
        omega
      rw [ih (n / 10) a hdiv]
      have hval : digsVal (a * 10 ^ (natDigsAux f (n / 10) []).length + n / 10)
          [digitChar (n % 10)] =
          10 * (a * 10 ^ (natDigsAux f (n / 10) []).length + n / 10) + n % 10 := by
        simp [digsVal, digitChar_toNat (Nat.mod_lt n (by omega))]
      rw [hval]
      have hlen : (natDigsAux f (n / 10) [] ++ [digitChar (n % 10)]).length =
          (natDigsAux f (n / 10) []).length + 1 := by simp
      rw [hlen, pow_succ]
      have := Nat.div_add_mod n 10
      ring_nf
      omega

theorem natDigs_digits (n : Nat) : ∀ c ∈ natDigs n, c.isDigit = true := by
  intro c hc
  unfold natDigs at hc
  by_cases h : n = 0
  · simp [h] at hc; subst hc; decide
  · rw [if_neg h] at hc; exact natDigsAux_digits _ _ _ hc

theorem natDigs_ne_nil (n : Nat) : natDigs n ≠ [] := by
  unfold natDigs
  by_cases h : n = 0
  · simp [h]
  · rw [if_neg h]; exact natDigsAux_ne_nil _ _ h (by omega)

theorem natDigs_val (n : Nat) : digsVal 0 (natDigs n) = n := by
  unfold natDigs
  by_cases h : n = 0
  · simp [h]; decide
  · rw [if_neg h, natDigsAux_val (n + 1) n 0 (by omega)]
    simp

theorem ph_data (n : Nat) : (ph n).data = '?' :: natDigs n := rfl

/-- A scan continuation may absorb an emitted number: its head must not be a
digit (which would extend the number) nor a `?` (which the emitting step
consumes differently). -/
def scanStop : List Char → Prop
  | [] => True
  | c :: _ => c.isDigit = false ∧ c ≠ '?'

theorem phScanAux_none_cons (c : Char) (cs : List Char) :
    phScanAux (c :: cs) none =
      phScanAux cs (if c = '?' then some (0, false) else none) := by
  rfl

theorem phScanAux_clean_append (s : List Char) (r : List Char)
    (h : ∀ c ∈ s, c ≠ '?') : phScanAux (s ++ r) none = phScanAux r none := by
  induction s with
  | nil => rfl
  | cons c cs ih =>
    rw [List.cons_append, phScanAux_none_cons,
      if_neg (h c (List.mem_cons_self c cs))]
    exact ih (fun d hd => h d (List.mem_cons_of_mem c hd))

theorem phScanAux_digits_append (ds : List Char) :
    ∀ r a, (∀ c ∈ ds, c.isDigit = true) →
      phScanAux (ds ++ r) (some (a, true)) = phScanAux r (some (digsVal a ds, true)) := by
  induction ds with
  | nil => intro r a _; simp [digsVal]
  | cons c cs ih =>
    intro r a h
    have hc : c.isDigit = true := h c (List.mem_cons_self c cs)
    rw [List.cons_append]
    show (if c.isDigit then phScanAux (cs ++ r) (some (10 * a + (c.toNat - 48), true))
      else _) = _
    rw [if_pos hc, ih r _ (fun d hd => h d (List.mem_cons_of_mem c hd))]
    rfl

theorem phScanAux_emit (r : List Char) (n : Nat) (h : scanStop r) :
    phScanAux r (some (n, true)) = n :: phScanAux r none := by
  match r with
  | [] => rfl
  | c :: r' =>
    obtain ⟨h1, h2⟩ := h
    show (if c.isDigit then _ else if true then
      n :: phScanAux r' (if c = '?' then some (0, false) else none) else _) = _
    rw [if_neg (by simp [h1]), if_pos rfl, if_neg h2, phScanAux_none_cons, if_neg h2]

theorem phScanAux_ph_append (n : Nat) (r : List Char) (h : scanStop r) :
    phScanAux ((ph n).data ++ r) none = n :: phScanAux r none := by
  rw [ph_data]
  match hd : natDigs n, natDigs_ne_nil n with
  | d :: ds, _ =>
    have hdig : ∀ c ∈ natDigs n, c.isDigit = true := natDigs_digits n
    rw [hd] at hdig
    have hdd : d.isDigit = true := hdig d (List.mem_cons_self d ds)
    rw [List.cons_append, phScanAux_none_cons, if_pos rfl, List.cons_append]
    show (if d.isDigit then phScanAux (ds ++ r)
        (some (10 * 0 + (d.toNat - 48), true)) else _) = _
    rw [if_pos hdd,
      phScanAux_digits_append ds r _ (fun c hc => hdig c (List.mem_cons_of_mem d hc)),
      phScanAux_emit r _ h]
    have : digsVal (10 * 0 + (d.toNat - 48)) ds = n := by
      have := natDigs_val n
      rw [hd] at this
      simpa [digsVal] using this
    rw [this]

theorem phNums_ph (n : Nat) : phNums (ph n) = [n] := by
  have := phScanAux_ph_append n [] trivial
  simpa [phNums] using this

theorem listIsPfx_self_append (p r : List Char) : listIsPfx p (p ++ r) = true := by
  induction p with
  | nil => rfl
  | cons c cs ih => simp [listIsPfx, ih]

theorem listIsPfx_append_right {p l : List Char} (r : List Char)
    (h : listIsPfx p l = true) : listIsPfx p (l ++ r) = true := by
  induction p generalizing l with
  | nil => rfl
  | cons c cs ih =>
    match l with
    | [] => simp [listIsPfx] at h
    | d :: ds =>
      simp only [listIsPfx, Bool.and_eq_true, decide_eq_true_eq] at h
      simp [listIsPfx, h.1, ih h.2]

theorem listHasInfix_nil_pat (l : List Char) : listHasInfix l [] = true := by
  cases l <;> simp [listHasInfix, listIsPfx, List.isEmpty]

theorem listHasInfix_of_pfx {l pat : List Char} (h : listIsPfx pat l = true) :
    listHasInfix l pat = true := by
  match l with
  | [] =>
    match pat with
    | [] => rfl
    | _ :: _ => simp [listIsPfx] at h
  | c :: cs => simp [listHasInfix, h]

theorem listHasInfix_append_left {a : List Char} (b : List Char) {pat : List Char}
    (h : listHasInfix a pat = true) : listHasInfix (a ++ b) pat = true := by
  induction a with
  | nil =>
    simp only [listHasInfix, List.isEmpty_eq_true] at h
    subst h
    exact listHasInfix_nil_pat b
  | cons c cs ih =>
    simp only [listHasInfix, Bool.or_eq_true] at h ⊢
    rcases h with h | h
    · exact Or.inl (show listIsPfx pat ((c :: cs) ++ b) = true from
        listIsPfx_append_right b h)
    · exact Or.inr (ih h)

theorem strHasInfix_append_left (a b pat : String)
    (h : strHasInfix a pat = true) : strHasInfix (a ++ b) pat = true := by
  unfold strHasInfix at h ⊢
  rw [strData_append]
  exact listHasInfix_append_left b.data h

theorem data_getq_left (a b : String) (j : Nat) (h : j < a.data.length) :
    (a ++ b).data[j]? = a.data[j]? := by
  rw [strData_append]
  exact List.getElem?_append_left h

theorem str_ne_of_getq {a b : String} (j : Nat)
    (h : a.data[j]? ≠ b.data[j]?) : a ≠ b := by
  intro e; exact h (by rw [e])

theorem joinSep_cons₂ (sep a b : String) (rest : List String) :
    joinSep sep (a :: b :: rest) = a ++ sep ++ joinSep sep (b :: rest) := rfl

theorem phScanAux_join_phs (ns : List Nat) :
    ∀ r, ns ≠ [] → scanStop r →
      phScanAux ((joinSep "," (ns.map ph)).data ++ r) none = ns ++ phScanAux r none := by
  induction ns with
  | nil => intro r h _; exact absurd rfl h
  | cons n rest ih =>
    intro r _ hr
    match rest with
    | [] =>
      show phScanAux ((ph n).data ++ r) none = _
      rw [phScanAux_ph_append n r hr]
      rfl
    | m :: rest' =>
      rw [List.map_cons, List.map_cons, joinSep_cons₂, strData_append, strData_append,
        List.append_assoc, List.append_assoc]
      rw [phScanAux_ph_append n _ (by constructor <;> decide)]
      rw [← List.map_cons]
      have hcomma : phScanAux ((",".data) ++ ((joinSep "," ((m :: rest').map ph)).data ++ r)) none =
          phScanAux ((joinSep "," ((m :: rest').map ph)).data ++ r) none := by
        exact phScanAux_clean_append _ _ (by decide)
      rw [hcomma, ih r (by simp) hr]
      rfl

theorem range_map_ph (i k : Nat) :
    (List.range k).map (fun j => ph (i + j + 1)) = (List.range' (i + 1) k).map ph := by
  rw [List.range'_eq_map_range, List.map_map]
  exact List.map_congr_left (fun j _ => by simp [Function.comp]; ring_nf)

theorem phNums_builderCondText (i k : Nat) (hk : 1 ≤ k) :
    phNums (builderCondText i k) = List.range' i (k + 1) := by
  match k, hk with
  | 1, _ =>
    unfold phNums builderCondText
    rw [if_pos rfl]
    rw [strData_append, strData_append, strData_append, List.append_assoc,
      List.append_assoc]
    rw [phScanAux_clean_append _ _ (by decide)]
    rw [phScanAux_ph_append i _ (by constructor <;> decide)]
    rw [phScanAux_clean_append _ _ (by decide)]
    have := phScanAux_ph_append (i + 1) [] trivial
    rw [List.append_nil] at this
    rw [this]
    rfl
  | (k' + 2), _ =>
    unfold phNums builderCondText
    rw [if_neg (by omega)]
    rw [range_map_ph]
    rw [strData_append, strData_append, strData_append, strData_append,
      List.append_assoc, List.append_assoc, List.append_assoc]
    rw [phScanAux_clean_append _ _ (by decide)]
    rw [phScanAux_ph_append i _ (by constructor <;> decide)]
    rw [phScanAux_clean_append _ _ (by decide)]
    rw [phScanAux_join_phs (List.range' (i + 1) (k' + 2)) _
      (by simp [List.range']) (by constructor <;> decide)]
    show i :: (List.range' (i + 1) (k' + 2) ++ phScanAux [')'] none) =
      List.range' i (k' + 2 + 1)
    rw [show phScanAux [')'] none = [] from rfl, List.append_nil, List.range'_succ]
    simp [List.range'_succ]

theorem builder_filterLoop_eq (fs : List (String × List String)) : ∀ i,
    builder.filterLoop i fs =
      ((shapeCondsLoop i (countsOf fs)).1, filterArgsSpec fs,
        (shapeCondsLoop i (countsOf fs)).2) := by
  induction fs with
  | nil => intro i; rfl
  | cons pv rest ih =>
    intro i
    obtain ⟨p, vs⟩ := pv
    match vs with
    | [] =>
      simpa [builder.filterLoop, countsOf, filterArgsSpec, filterArgBlock] using ih i
    | [v] =>
      simp only [builder.filterLoop, countsOf, List.filterMap_cons, filterArgsSpec,
        List.flatMap_cons, filterArgBlock, List.isEmpty_cons, ih (i + 2)]
      simp [shapeCondsLoop, builderCondText, countsOf, filterArgsSpec]
    | v1 :: v2 :: vs' =>
      simp only [builder.filterLoop, countsOf, List.filterMap_cons, filterArgsSpec,
        List.flatMap_cons, filterArgBlock, List.isEmpty_cons,
        ih (i + (v1 :: v2 :: vs').length + 1)]
      simp [shapeCondsLoop, builderCondText, countsOf, filterArgsSpec]

theorem builder_baseConds_shape (ctx : Context) (params : UsageParams) :
    (builder.baseConditionsArgs ctx params).1 = shapeBaseConds (baseShapeOf ctx params) ∧
    (builder.baseConditionsArgs ctx params).2.1 = expectedBaseArgs ctx params := by
  unfold builder.baseConditionsArgs shapeBaseConds baseShapeOf expectedBaseArgs
    builder.parseTimeConditionsWithIndex getTenantID getEnvironmentID
  by_cases h1 : ctx.tenantID = "" <;> by_cases h2 : ctx.environmentID = "" <;>
    cases h3 : params.startTime.isZero <;> cases h4 : params.endTime.isZero <;>
    by_cases h5 : params.externalCustomerID = "" <;>
    by_cases h6 : params.customerID = "" <;>
    simp [h1, h2, h3, h4, h5, h6, builder_filterLoop_eq]

/-- Reflexive closure of the key comparison. -/
def pairLe (a b : Int × String) : Prop := pairLt a b ∨ a = b

theorem pairLe_refl (a : Int × String) : pairLe a a := Or.inr rfl

theorem pairLt_trans {a b c : Int × String} (h1 : pairLt a b) (h2 : pairLt b c) :
    pairLt a c := by
  rcases h1 with h1 | ⟨h1, h1'⟩ <;> rcases h2 with h2 | ⟨h2, h2'⟩
  · exact Or.inl (lt_trans h1 h2)
  · exact Or.inl (h2 ▸ h1)
  · exact Or.inl (h1 ▸ h2)
  · exact Or.inr ⟨h1.trans h2, lt_trans h1' h2'⟩

theorem pairLe_trans {a b c : Int × String} (h1 : pairLe a b) (h2 : pairLe b c) :
    pairLe a c := by
  rcases h1 with h1 | rfl
  · rcases h2 with h2 | rfl
    · exact Or.inl (pairLt_trans h1 h2)
    · exact Or.inl h1
  · exact h2

theorem pairLt_total (a b : Int × String) : pairLt a b ∨ pairLt b a ∨ a = b := by
  rcases lt_trichotomy a.1 b.1 with h | h | h
  · exact Or.inl (Or.inl h)
  · rcases lt_trichotomy a.2 b.2 with h' | h' | h'
    · exact Or.inl (Or.inr ⟨h, h'⟩)
    · exact Or.inr (Or.inr (Prod.ext h h'))
    · exact Or.inr (Or.inl (Or.inr ⟨h.symm, h'⟩))
  · exact Or.inr (Or.inl (Or.inl h))

theorem bestMatchAux_spec (l : List GroupTriple) : ∀ b,
    (bestMatchAux b l = b ∨ ∃ t ∈ l, bestMatchAux b l = (t.priority, t.id)) ∧
    pairLe b (bestMatchAux b l) ∧
    ∀ t ∈ l, pairLe (t.priority, t.id) (bestMatchAux b l) := by
  induction l with
  | nil => intro b; exact ⟨Or.inl rfl, pairLe_refl b, by simp⟩
  | cons t rest ih =>
    intro b
    have step : bestMatchAux b (t :: rest) =
        bestMatchAux (if pairLt b (t.priority, t.id) then (t.priority, t.id) else b)
          rest := rfl
    obtain ⟨hmem, hge, hall⟩ :=
      ih (if pairLt b (t.priority, t.id) then (t.priority, t.id) else b)
    have hb' : pairLe b (if pairLt b (t.priority, t.id) then (t.priority, t.id) else b) := by
      split
      next h => exact Or.inl h
      next h => exact pairLe_refl b
    have ht' : pairLe (t.priority, t.id)
        (if pairLt b (t.priority, t.id) then (t.priority, t.id) else b) := by
      split
      next h => exact pairLe_refl _
      next h =>
        rcases pairLt_total b (t.priority, t.id) with h1 | h1 | h1
        · exact absurd h1 h
        · exact Or.inl h1
        · exact Or.inr h1.symm
    refine ⟨?_, ?_, ?_⟩
    · rcases hmem with h | ⟨u, hu, he⟩
      · by_cases hc : pairLt b (t.priority, t.id)
        · refine Or.inr ⟨t, List.mem_cons_self t rest, ?_⟩
          rw [step, h, if_pos hc]
        · refine Or.inl ?_
          rw [step, h, if_neg hc]
      · exact Or.inr ⟨u, List.mem_cons_of_mem t hu, by rw [step]; exact he⟩
    · rw [step]; exact pairLe_trans hb' hge
    · intro u hu
      rw [step]
      rcases List.mem_cons.1 hu with rfl | hu'
      · exact pairLe_trans ht' hge
      · exact hall u hu'

theorem bestMatchGroup_spec (ts : List GroupTriple) (t : GroupTriple)
    (ht : t ∈ ts) (hm : t.isMatch = true) :
    ∃ w ∈ ts, w.isMatch = true ∧ bestMatchGroup ts = some w.id ∧
      ∀ u ∈ ts, u.isMatch = true → pairLe (u.priority, u.id) (w.priority, w.id) := by
  have htm : t ∈ ts.filter (fun u => u.isMatch) := List.mem_filter.2 ⟨ht, hm⟩
  match hf : ts.filter (fun u => u.isMatch) with
  | [] => rw [hf] at htm; cases htm
  | t0 :: rest =>
    obtain ⟨hmem, hge, hall⟩ := bestMatchAux_spec rest (t0.priority, t0.id)
    have hres : bestMatchGroup ts = some (bestMatchAux (t0.priority, t0.id) rest).2 := by
      unfold bestMatchGroup
      rw [hf]
    have hw : ∃ w ∈ t0 :: rest,
        bestMatchAux (t0.priority, t0.id) rest = (w.priority, w.id) := by
      rcases hmem with h | ⟨u, hu, he⟩
      · exact ⟨t0, List.mem_cons_self t0 rest, h⟩
      · exact ⟨u, List.mem_cons_of_mem t0 hu, he⟩
    obtain ⟨w, hwmem, hweq⟩ := hw
    have hwts : w ∈ ts ∧ w.isMatch = true := by
      have := hf ▸ hwmem
      exact ⟨(List.mem_filter.1 this).1, by simpa using (List.mem_filter.1 this).2⟩
    refine ⟨w, hwts.1, hwts.2, by rw [hres, hweq], ?_⟩
    intro u hu hum
    have huf : u ∈ t0 :: rest := by
      rw [← hf]; exact List.mem_filter.2 ⟨hu, hum⟩
    rw [← hweq]
    rcases List.mem_cons.1 huf with rfl | hu'
    · exact hge
    · exact hall u hu'

theorem dedupRowsAux_append_dup (r : EventRow) :
    ∀ (l : List EventRow) (seen : List (String × String × GoTime × String)),
      (r.dedupKeyOf ∈ seen ∨ r.dedupKeyOf ∈ l.map EventRow.dedupKeyOf) →
      dedupRowsAux seen (l ++ [r]) = dedupRowsAux seen l := by
  intro l
  induction l with
  | nil =>
    intro seen h
    rcases h with h | h
    · simp [dedupRowsAux, h]
    · simp at h
  | cons x l' ih =>
    intro seen h
    have hsplit : r.dedupKeyOf = x.dedupKeyOf ∨
        (r.dedupKeyOf ∈ seen ∨ r.dedupKeyOf ∈ l'.map EventRow.dedupKeyOf) := by
      rcases h with h | h
      · exact Or.inr (Or.inl h)
      · rw [List.map_cons] at h
        rcases List.mem_cons.1 h with h' | h'
        · exact Or.inl h'
        · exact Or.inr (Or.inr h')
    by_cases hx : x.dedupKeyOf ∈ seen
    · simp only [List.cons_append, dedupRowsAux, if_pos hx]
      apply ih
      rcases hsplit with h' | h' | h'
      · exact Or.inl (h' ▸ hx)
      · exact Or.inl h'
      · exact Or.inr h'
    · simp only [List.cons_append, dedupRowsAux, if_neg hx]
      congr 1
      apply ih
      rcases hsplit with h' | h' | h'
      · exact Or.inl (by rw [h']; exact List.mem_cons_self _ _)
      · exact Or.inl (List.mem_cons_of_mem _ h')
      · exact Or.inr h'

theorem dedupRows_append_dup (s : List EventRow) (r : EventRow) (h : r ∈ s) :
    dedupRows (s ++ [r]) = dedupRows s :=
  dedupRowsAux_append_dup r s [] (Or.inr (List.mem_map_of_mem _ h))

theorem dedup_filter_replay (p : EventRow → Bool) (s : List EventRow)
    (r : EventRow) (h : r ∈ s) :
    dedupRows ((s ++ [r]).filter p) = dedupRows (s.filter p) := by
  rw [List.filter_append]
  by_cases hp : p r = true
  · rw [show List.filter p [r] = [r] by simp [hp]]
    exact dedupRows_append_dup _ r (List.mem_filter.2 ⟨h, hp⟩)
  · rw [show List.filter p [r] = [] by simp [hp], List.append_nil]

theorem ne_of_pfx_diff {pre s1 s2 : String}
    (h1 : listIsPfx pre.data s1.data = true)
    (h2 : listIsPfx pre.data s2.data = false) : s1 ≠ s2 := by
  intro e
  rw [e, h2] at h1
  cases h1

/-! Prefix classification of the base-fragment conditions.  Every condition
family carries a distinct literal head, so a condition is a tenant (resp.
environment) restriction exactly when it starts with `tenant_id = ` (resp.
`environment_id = `); all computations below unfold by `rfl` because only the
concrete literal heads are examined. -/

theorem isT_self (k : Nat) :
    listIsPfx "tenant_id = ".data ("tenant_id = " ++ ph k).data = true := by
  rw [strData_append]; exact listIsPfx_self_append _ _

theorem isE_self (k : Nat) :
    listIsPfx "environment_id = ".data ("environment_id = " ++ ph k).data = true := by
  rw [strData_append]; exact listIsPfx_self_append _ _

theorem notT_event (k : Nat) :
    listIsPfx "tenant_id = ".data ("event_name = " ++ ph k).data = false := by
  rw [strData_append]; rfl

theorem notT_env (k : Nat) :
    listIsPfx "tenant_id = ".data ("environment_id = " ++ ph k).data = false := by
  rw [strData_append]; rfl

theorem notT_ts (k : Nat) : listIsPfx "tenant_id = ".data
    ("timestamp >= toDateTime64(" ++ ph k ++ ", 3)").data = false := by
  rw [strData_append, strData_append]; rfl

theorem notT_te (k : Nat) : listIsPfx "tenant_id = ".data
    ("timestamp < toDateTime64(" ++ ph k ++ ", 3)").data = false := by
  rw [strData_append, strData_append]; rfl

theorem notT_ext (k : Nat) :
    listIsPfx "tenant_id = ".data ("external_customer_id = " ++ ph k).data = false := by
  rw [strData_append]; rfl

theorem notT_cust (k : Nat) :
    listIsPfx "tenant_id = ".data ("customer_id = " ++ ph k).data = false := by
  rw [strData_append]; rfl

theorem notT_condText (i k : Nat) :
    listIsPfx "tenant_id = ".data (builderCondText i k).data = false := by
  unfold builderCondText
  split
  · rw [strData_append, strData_append, strData_append]; rfl
  · rw [strData_append, strData_append, strData_append, strData_append]; rfl

theorem notE_event (k : Nat) :
    listIsPfx "environment_id = ".data ("event_name = " ++ ph k).data = false := by
  rw [strData_append]; rfl

theorem notE_tenant (k : Nat) :
    listIsPfx "environment_id = ".data ("tenant_id = " ++ ph k).data = false := by
  rw [strData_append]; rfl

theorem notE_ts (k : Nat) : listIsPfx "environment_id = ".data
    ("timestamp >= toDateTime64(" ++ ph k ++ ", 3)").data = false := by
  rw [strData_append, strData_append]; rfl

theorem notE_te (k : Nat) : listIsPfx "environment_id = ".data
    ("timestamp < toDateTime64(" ++ ph k ++ ", 3)").data = false := by
  rw [strData_append, strData_append]; rfl

theorem notE_ext (k : Nat) :
    listIsPfx "environment_id = ".data ("external_customer_id = " ++ ph k).data = false := by
  rw [strData_append]; rfl

theorem notE_cust (k : Nat) :
    listIsPfx "environment_id = ".data ("customer_id = " ++ ph k).data = false := by
  rw [strData_append]; rfl

theorem notE_condText (i k : Nat) :
    listIsPfx "environment_id = ".data (builderCondText i k).data = false := by
  unfold builderCondText
  split
  · rw [strData_append, strData_append, strData_append]; rfl
  · rw [strData_append, strData_append, strData_append, strData_append]; rfl

theorem shapeCondsLoop_all_notT (counts : List Nat) : ∀ i,
    ((shapeCondsLoop i counts).1).all
      (fun c => !listIsPfx "tenant_id = ".data c.data) = true := by
  induction counts with
  | nil => intro i; rfl
  | cons k rest ih =>
    intro i
    have h1 := notT_condText i k
    simp [shapeCondsLoop, h1, ih (i + k + 1)]

theorem shapeCondsLoop_all_notE (counts : List Nat) : ∀ i,
    ((shapeCondsLoop i counts).1).all
      (fun c => !listIsPfx "environment_id = ".data c.data) = true := by
  induction counts with
  | nil => intro i; rfl
  | cons k rest ih =>
    intro i
    have h1 := notE_condText i k
    simp [shapeCondsLoop, h1, ih (i + k + 1)]

theorem builder_filterLoop_all_notT (fs : List (String × List String)) : ∀ i,
    ((builder.filterLoop i fs).1).all
      (fun c => !listIsPfx "tenant_id = ".data c.data) = true := by
  induction fs with
  | nil => intro i; rfl
  | cons pv rest ih =>
    intro i
    obtain ⟨p, vs⟩ := pv
    match vs with
    | [] => exact ih i
    | [v] => simp [builder.filterLoop, ih (i + 2), listIsPfx, strData_append]
    | v1 :: v2 :: vs' =>
      simp [builder.filterLoop, listIsPfx, strData_append]
      intro x hx
      have := List.all_eq_true.1 (ih _) x hx
      simpa using this

theorem builder_filterLoop_all_notE (fs : List (String × List String)) : ∀ i,
    ((builder.filterLoop i fs).1).all
      (fun c => !listIsPfx "environment_id = ".data c.data) = true := by
  induction fs with
  | nil => intro i; rfl
  | cons pv rest ih =>
    intro i
    obtain ⟨p, vs⟩ := pv
    match vs with
    | [] => exact ih i
    | [v] => simp [builder.filterLoop, ih (i + 2), listIsPfx, strData_append]
    | v1 :: v2 :: vs' =>
      simp [builder.filterLoop, listIsPfx, strData_append]
      intro x hx
      have := List.all_eq_true.1 (ih _) x hx
      simpa using this

theorem legacy_filterLoop_all_notT (fs : List (String × List String)) : ∀ i,
    ((legacy.filterLoop i fs).1).all
      (fun c => !listIsPfx "tenant_id = ".data c.data) = true := by
  induction fs with
  | nil => intro i; rfl
  | cons pv rest ih =>
    intro i
    obtain ⟨p, vs⟩ := pv
    match vs with
    | [] => exact ih i
    | [v] => simp [legacy.filterLoop, ih (i + 1), listIsPfx, strData_append]
    | v1 :: v2 :: vs' =>
      simp [legacy.filterLoop, listIsPfx, strData_append]
      intro x hx
      have := List.all_eq_true.1 (ih _) x hx
      simpa using this

theorem legacy_filterLoop_all_notE (fs : List (String × List String)) : ∀ i,
    ((legacy.filterLoop i fs).1).all
      (fun c => !listIsPfx "environment_id = ".data c.data) = true := by
  induction fs with
  | nil => intro i; rfl
  | cons pv rest ih =>
    intro i
    obtain ⟨p, vs⟩ := pv
    match vs with
    | [] => exact ih i
    | [v] => simp [legacy.filterLoop, ih (i + 1), listIsPfx, strData_append]
    | v1 :: v2 :: vs' =>
      simp [legacy.filterLoop, listIsPfx, strData_append]
      intro x hx
      have := List.all_eq_true.1 (ih _) x hx
      simpa using this

theorem builder_baseConds_all_notT (ctx : Context) (params : UsageParams)
    (h : ctx.tenantID = "") :
    ((builder.baseConditionsArgs ctx params).1).all
      (fun c => !listIsPfx "tenant_id = ".data c.data) = true := by
  unfold builder.baseConditionsArgs builder.parseTimeConditionsWithIndex
    getTenantID getEnvironmentID
  by_cases h2 : ctx.environmentID = "" <;> cases h3 : params.startTime.isZero <;>
    cases h4 : params.endTime.isZero <;>
    by_cases h5 : params.externalCustomerID = "" <;>
    by_cases h6 : params.customerID = "" <;>
    simp [h, h2, h3, h4, h5, h6, List.all_append, listIsPfx, strData_append,
      builder_filterLoop_all_notT]

theorem builder_baseConds_all_notE (ctx : Context) (params : UsageParams)
    (h : ctx.environmentID = "") :
    ((builder.baseConditionsArgs ctx params).1).all
      (fun c => !listIsPfx "environment_id = ".data c.data) = true := by
  unfold builder.baseConditionsArgs builder.parseTimeConditionsWithIndex
    getTenantID getEnvironmentID
  by_cases h2 : ctx.tenantID = "" <;> cases h3 : params.startTime.isZero <;>
    cases h4 : params.endTime.isZero <;>
    by_cases h5 : params.externalCustomerID = "" <;>
    by_cases h6 : params.customerID = "" <;>
    simp [h, h2, h3, h4, h5, h6, List.all_append, listIsPfx, strData_append,
      builder_filterLoop_all_notE]

theorem legacy_baseConds_all_notT (ctx : Context) (params : UsageParams)
    (h : ctx.tenantID = "") :
    ((legacy.baseConditionsArgs ctx params).1).all
      (fun c => !listIsPfx "tenant_id = ".data c.data) = true := by
  unfold legacy.baseConditionsArgs legacy.parseTimeConditions
    getTenantID getEnvironmentID
  by_cases h2 : ctx.environmentID = "" <;> cases h3 : params.startTime.isZero <;>
    cases h4 : params.endTime.isZero <;>
    by_cases h5 : params.externalCustomerID = "" <;>
    by_cases h6 : params.customerID = "" <;>
    simp [h, h2, h3, h4, h5, h6, List.all_append, listIsPfx, strData_append,
      legacy_filterLoop_all_notT]

theorem legacy_baseConds_all_notE (ctx : Context) (params : UsageParams)
    (h : ctx.environmentID = "") :
    ((legacy.baseConditionsArgs ctx params).1).all
      (fun c => !listIsPfx "environment_id = ".data c.data) = true := by
  unfold legacy.baseConditionsArgs legacy.parseTimeConditions
    getTenantID getEnvironmentID
  by_cases h2 : ctx.tenantID = "" <;> cases h3 : params.startTime.isZero <;>
    cases h4 : params.endTime.isZero <;>
    by_cases h5 : params.externalCustomerID = "" <;>
    by_cases h6 : params.customerID = "" <;>
    simp [h, h2, h3, h4, h5, h6, List.all_append, listIsPfx, strData_append,
      legacy_filterLoop_all_notE]

theorem builder_baseConds_mem_tenant (ctx : Context) (params : UsageParams)
    (h : ctx.tenantID ≠ "") :
    "tenant_id = " ++ ph 2 ∈ (builder.baseConditionsArgs ctx params).1 := by
  unfold builder.baseConditionsArgs builder.parseTimeConditionsWithIndex
    getTenantID getEnvironmentID
  by_cases h2 : ctx.environmentID = "" <;> cases h3 : params.startTime.isZero <;>
    cases h4 : params.endTime.isZero <;>
    by_cases h5 : params.externalCustomerID = "" <;>
    by_cases h6 : params.customerID = "" <;>
    simp [h, h2, h3, h4, h5, h6]

theorem builder_baseConds_mem_env (ctx : Context) (params : UsageParams)
    (h : ctx.environmentID ≠ "") :
    ∃ k, "environment_id = " ++ ph k ∈ (builder.baseConditionsArgs ctx params).1 := by
  by_cases h1 : ctx.tenantID = ""
  · refine ⟨2, ?_⟩
    unfold builder.baseConditionsArgs builder.parseTimeConditionsWithIndex
      getTenantID getEnvironmentID
    cases h3 : params.startTime.isZero <;> cases h4 : params.endTime.isZero <;>
      by_cases h5 : params.externalCustomerID = "" <;>
      by_cases h6 : params.customerID = "" <;>
      simp [h, h1, h3, h4, h5, h6]
  · refine ⟨3, ?_⟩
    unfold builder.baseConditionsArgs builder.parseTimeConditionsWithIndex
      getTenantID getEnvironmentID
    cases h3 : params.startTime.isZero <;> cases h4 : params.endTime.isZero <;>
      by_cases h5 : params.externalCustomerID = "" <;>
      by_cases h6 : params.customerID = "" <;>
      simp [h, h1, h3, h4, h5, h6]

theorem legacy_baseConds_mem_tenant (ctx : Context) (params : UsageParams)
    (h : ctx.tenantID ≠ "") :
    "tenant_id = " ++ ph 2 ∈ (legacy.baseConditionsArgs ctx params).1 := by
  unfold legacy.baseConditionsArgs legacy.parseTimeConditions
    getTenantID getEnvironmentID
  by_cases h2 : ctx.environmentID = "" <;> cases h3 : params.startTime.isZero <;>
    cases h4 : params.endTime.isZero <;>
    by_cases h5 : params.externalCustomerID = "" <;>
    by_cases h6 : params.customerID = "" <;>
    simp [h, h2, h3, h4, h5, h6]

theorem legacy_baseConds_mem_env (ctx : Context) (params : UsageParams)
    (h : ctx.environmentID ≠ "") :
    ∃ k, "environment_id = " ++ ph k ∈ (legacy.baseConditionsArgs ctx params).1 := by
  by_cases h1 : ctx.tenantID = ""
  · refine ⟨2, ?_⟩
    unfold legacy.baseConditionsArgs legacy.parseTimeConditions
      getTenantID getEnvironmentID
    cases h3 : params.startTime.isZero <;> cases h4 : params.endTime.isZero <;>
      by_cases h5 : params.externalCustomerID = "" <;>
      by_cases h6 : params.customerID = "" <;>
      simp [h, h1, h3, h4, h5, h6]
  · refine ⟨3, ?_⟩
    unfold legacy.baseConditionsArgs legacy.parseTimeConditions
      getTenantID getEnvironmentID
    cases h3 : params.startTime.isZero <;> cases h4 : params.endTime.isZero <;>
      by_cases h5 : params.externalCustomerID = "" <;>
      by_cases h6 : params.customerID = "" <;>
      simp [h, h1, h3, h4, h5, h6]

theorem isTSpfx (k : Nat) : listIsPfx "timestamp >= ".data
    ("timestamp >= toDateTime64(" ++ ph k ++ ", 3)").data = true := by
  rw [strData_append, strData_append]; rfl

theorem notTSpfx_end (k : Nat) : listIsPfx "timestamp >= ".data
    ("timestamp < toDateTime64(" ++ ph k ++ ", 3)").data = false := by
  rw [strData_append, strData_append]; rfl

theorem isTEpfx (k : Nat) : listIsPfx "timestamp < ".data
    ("timestamp < toDateTime64(" ++ ph k ++ ", 3)").data = true := by
  rw [strData_append, strData_append]; rfl

theorem notTEpfx_start (k : Nat) : listIsPfx "timestamp < ".data
    ("timestamp >= toDateTime64(" ++ ph k ++ ", 3)").data = false := by
  rw [strData_append, strData_append]; rfl

/-! The claims. -/

set_option maxRecDepth 40000

/-- Claim C1: for every compiled output of `Build`, the placeholder numbers
form the contiguous sequence 1..N with no gaps or repeats across the whole
statement and the Nth placeholder corresponds to the Nth argument.  The code
violates this: each stage restarts its numbering at `?1` (`WithBaseFilters`,
`WithFilterGroups` and `WithAggregation` all begin with `argIndex := 1`), so
at the failing input the statement's placeholders read `[1, 2, 3, 4, 1, 2]`
for six arguments — numbers 1 and 2 are reused by the filter-group fragment
and 5, 6 never occur, and the fifth placeholder in textual order does not
correspond to the fifth argument.  The spec is the intent (its §9 explicitly
calls the per-fragment numbering of the two builder variants "collision
bugs"), so this is recorded as a code bug. -/
theorem C1_placeholder_numbering_bug :
    phNums c1Output.1 = [1, 2, 3, 4, 1, 2] ∧ c1Output.2.length = 6 ∧
      [1, 2, 3, 4, 1, 2] ≠ List.range' 1 6 := by
  exact ⟨by decide, by decide, by decide⟩

/-- Claim C2 counterexample: the claim is false on the code.  In the legacy
builder the filter property name `region` appears verbatim in the emitted
statement text (outside any placeholder — the name contains no `?`).  In the
indexed builder the multi-value filter emits
`JSONExtractString(properties, ?2) IN (?3,?4)` — the property name's
placeholder is `?2` — but the argument at position 2 is the value
`us-east-1`, the property name being appended last (position 4), so a value
does not sit at the position its placeholder number indicates. -/
theorem C2_counterexample :
    strHasInfix c2LegacyQuery.query "region" = true ∧
    strHasInfix c2IndexedBase.query "JSONExtractString(properties, ?2) IN (?3,?4)" = true ∧
    c2IndexedBase.args[1]? = some (Arg.str "us-east-1") ∧
    c2IndexedBase.args[3]? = some (Arg.str "region") := by
  exact ⟨by decide, by decide, by decide, by decide⟩

/-- Claim C2 (amended): in the indexed builder no caller-supplied literal
value is embedded in the statement text — the base-fragment text is a
function of the query's structural shape alone (presence flags and value
counts), so no event name, id, property name or value can influence it — and
every caller-supplied value is placed in the argument list, in emission
order: event name, tenant id, environment id, time bounds, customer ids,
then per filter entry its property name and values ([property, value] for a
single value, values-then-property for several).  The positional
correspondence of the original claim holds only for the single-value layout;
the multi-value layout misorders property and values (see the
counterexample), and the legacy builder embeds property names literally. -/
theorem C2_no_literal_injection (ctx : Context) (params : UsageParams) :
    (builder.WithBaseFilters ctx params NewQueryBuilder).baseQuery.query =
      shapeBaseText (baseShapeOf ctx params) ∧
    (builder.WithBaseFilters ctx params NewQueryBuilder).baseQuery.args =
      expectedBaseArgs ctx params := by
  have h := builder_baseConds_shape ctx params
  constructor
  · show builder.baseQueryText (joinSep " AND " (builder.baseConditionsArgs ctx params).1) = _
    rw [h.1]
    rfl
  · show (builder.baseConditionsArgs ctx params).2.1 = _
    exact h.2

/-- Claim C3 counterexample: in the legacy builder (cited by the claim's
sources) a single allowed value compiles to
`JSONExtractString(properties, 'region') = ?2` — exactly one placeholder
consumed (the scanner finds `[2]`, not two placeholders), the property name
embedded as literal text, and only the value in the argument list. -/
theorem C3_counterexample :
    c3LegacyCond.1 = ["JSONExtractString(properties, 'region') = ?2"] ∧
    phNums "JSONExtractString(properties, 'region') = ?2" = [2] ∧
    strHasInfix "JSONExtractString(properties, 'region') = ?2" "region" = true ∧
    c3LegacyCond.2.1 = [Arg.str "x"] := by
  exact ⟨by decide, by decide, by decide, by decide⟩

/-- Claim C3 (amended): in the indexed builder the claim holds — a filter
entry with k ≥ 1 allowed values compiles to one condition whose text is a
function of the entry index and k alone (the property name is never embedded
as literal text), consuming exactly the placeholders i..i+k (two for a
single value: property and value; 1 + k for k > 1) and exactly k + 1
arguments; in the legacy builder the property name is embedded literally and
only k placeholders are consumed (see the counterexample). -/
theorem C3_condition_placeholders (i : Nat) (p : String) (vs : List String)
    (h : vs ≠ []) :
    builder.filterLoop i [(p, vs)] =
      ([builderCondText i vs.length], filterArgBlock (p, vs), i + vs.length + 1) ∧
    phNums (builderCondText i vs.length) = List.range' i (vs.length + 1) ∧
    (filterArgBlock (p, vs)).length = vs.length + 1 := by
  match vs, h with
  | [v], _ =>
    refine ⟨?_, phNums_builderCondText i 1 (by omega), ?_⟩ <;>
      simp [builder.filterLoop, builderCondText, filterArgBlock]
  | v1 :: v2 :: vs', _ =>
    refine ⟨?_, phNums_builderCondText i (v1 :: v2 :: vs').length (by simp), ?_⟩ <;>
      simp [builder.filterLoop, builderCondText, filterArgBlock]

/-- Witness for C3: the amended claim at index 5 and entry `{p: [a, b]}`. -/
theorem C3_condition_placeholders_witness :
    builder.filterLoop 5 [("p", ["a", "b"])] =
      ([builderCondText 5 2], filterArgBlock ("p", ["a", "b"]), 5 + 2 + 1) ∧
    phNums (builderCondText 5 2) = List.range' 5 3 ∧
    (filterArgBlock ("p", ["a", "b"])).length = 3 :=
  C3_condition_placeholders 5 "p" ["a", "b"] (by decide)

/-- Claim C4 (confirmed): the filter-group stage resolves attribution through
the emitted `argMax(group_id, (total_filters, group_id))` operator (present
verbatim in the matched-query constant both builders emit, with
`total_filters` bound to the group priority), and under that operator's
semantics the winner for a row with at least one matching triple is a
matching group maximal in (priority, id): every matching group either has
strictly lower priority, or equal priority and a lexicographically
less-or-equal identifier.  The winner is unique — `bestMatchGroup` is a
function yielding a single group id — so no row is attributed to more than
one group. -/
theorem C4_priority_attribution (groups : List FilterGroup) (row : EventRow)
    (t : GroupTriple) (ht : t ∈ groupTriples groups row) (hm : t.isMatch = true) :
    strHasInfix matchedEventsQuery "argMax(group_id, (total_filters, group_id))" = true ∧
    ∃ w ∈ groupTriples groups row, w.isMatch = true ∧
      bestMatchGroup (groupTriples groups row) = some w.id ∧
      ∀ u ∈ groupTriples groups row, u.isMatch = true →
        u.priority < w.priority ∨ (u.priority = w.priority ∧ u.id ≤ w.id) := by
  obtain ⟨w, hw, hwm, hbg, hmax⟩ := bestMatchGroup_spec _ t ht hm
  refine ⟨by decide, w, hw, hwm, hbg, ?_⟩
  intro u hu hum
  rcases hmax u hu hum with h | h
  · rcases h with h | ⟨h1, h2⟩
    · exact Or.inl h
    · exact Or.inr ⟨h1, le_of_lt h2⟩
  · exact Or.inr ⟨congrArg Prod.fst h, le_of_eq (congrArg Prod.snd h)⟩

/-- Witness for C4 at the spec's scenario: both groups match and the winner
is `g1`, the one with strictly higher priority. -/
theorem C4_priority_attribution_witness :
    strHasInfix matchedEventsQuery "argMax(group_id, (total_filters, group_id))" = true ∧
    ∃ w ∈ groupTriples c4Groups c4Row, w.isMatch = true ∧
      bestMatchGroup (groupTriples c4Groups c4Row) = some w.id ∧
      ∀ u ∈ groupTriples c4Groups c4Row, u.isMatch = true →
        u.priority < w.priority ∨ (u.priority = w.priority ∧ u.id ≤ w.id) :=
  C4_priority_attribution c4Groups c4Row ⟨"g1", 2, true⟩ (by decide) (by decide)

/-- Claim C5 counterexample: the claim is false on the code — `WithAggregation`
has no error path at all (it returns the builder unconditionally).  An
unknown aggregation kind does not fail validation: a fragment is emitted
with an empty aggregation clause (note the `,  as value` hole), and SUM with
an empty property name also compiles, binding the empty string as the
property argument. -/
theorem C5_counterexample :
    c5Unknown.query =
      "SELECT best_match_group as filter_group_id,  as value FROM best_matches GROUP BY best_match_group ORDER BY best_match_group" ∧
    c5Unknown.query ≠ "" ∧
    (builder.WithAggregation AggregationSum "" NewQueryBuilder).finalQuery.args =
      [Arg.str ""] := by
  exact ⟨by decide, by decide, by decide⟩

/-- Claim C5 (amended): no aggregation validation exists.  COUNT compiles
with an empty property name (as the claim states); but SUM, AVG and
COUNT_DISTINCT with an empty property name also compile, passing the empty
string as the parameterized property; and an unknown kind, instead of
failing before any fragment is built, emits the final fragment with an empty
aggregation clause.  (The legacy `WithAggregation` is textually identical.) -/
theorem C5_no_validation :
    (builder.WithAggregation AggregationCount "" NewQueryBuilder).finalQuery =
      ⟨builder.finalQueryText "COUNT(*)", []⟩ ∧
    (builder.WithAggregation AggregationSum "" NewQueryBuilder).finalQuery =
      ⟨builder.finalQueryText "SUM(CAST(JSONExtractString(properties, ?1) AS Float64))",
        [Arg.str ""]⟩ ∧
    (builder.WithAggregation AggregationAvg "" NewQueryBuilder).finalQuery =
      ⟨builder.finalQueryText "AVG(CAST(JSONExtractString(properties, ?1) AS Float64))",
        [Arg.str ""]⟩ ∧
    (builder.WithAggregation AggregationCountUnique "" NewQueryBuilder).finalQuery =
      ⟨builder.finalQueryText "COUNT(DISTINCT JSONExtractString(properties, ?1))",
        [Arg.str ""]⟩ ∧
    (builder.WithAggregation "TOTAL" "p" NewQueryBuilder).finalQuery =
      ⟨builder.finalQueryText "", []⟩ := by
  exact ⟨by decide, by decide, by decide, by decide, by decide⟩

/-- Claim C6 counterexample: the scenario's argument list is not the claimed
`[api_call, T0, T1, region, us-east-1, us-west-1]` — the property name is
appended after its values, not before them. -/
theorem C6_counterexample :
    c6Output.2 ≠
      [Arg.str "api_call", Arg.time c6T0, Arg.time c6T1, Arg.str "region",
        Arg.str "us-east-1", Arg.str "us-west-1"] := by
  decide

/-- Claim C6 (amended): the scenario compiles to a statement holding only
the base CTE — the filter-group stage is not invoked (no `filter_matches`
fragment appears) — with argument list exactly
`[api_call, T0, T1, us-east-1, us-west-1, region]` (values before property
name) and, since only one fragment carries placeholders, contiguous
numbering 1..6.  The final COUNT SELECT still reads `FROM best_matches`
although no `best_matches` CTE is defined in the statement, so the
aggregation does not in fact run over the base rows as one implicit
bucket. -/
theorem C6_scenario :
    c6Output.2 =
      [Arg.str "api_call", Arg.time c6T0, Arg.time c6T1, Arg.str "us-east-1",
        Arg.str "us-west-1", Arg.str "region"] ∧
    phNums c6Output.1 = [1, 2, 3, 4, 5, 6] ∧
    strHasInfix c6Output.1 "filter_matches" = false ∧
    strHasInfix c6Output.1 "FROM best_matches" = true ∧
    strHasInfix c6Output.1 "best_matches AS" = false := by
  exact ⟨by decide, by decide, by decide, by decide, by decide⟩

/-- Claim C7 (confirmed): the deduplication key is the column tuple (tenant,
environment, timestamp, id); every base fragment the indexed builder emits
collapses rows through `SELECT DISTINCT ON (` that key `)`; and under the
modelled semantics of that operator (one representative row per key), for
any filter predicate and any aggregate whatsoever, a store into which a
duplicate delivery of an existing row has been appended yields exactly the
same deduplicated row set — hence the same aggregate result — as the store
holding the event once: aggregation is idempotent under replay. -/
theorem C7_dedup_idempotent :
    builder.getDeduplicationKey = "tenant_id, environment_id, timestamp, id" ∧
    (∀ (ctx : Context) (params : UsageParams),
      strHasInfix (builder.WithBaseFilters ctx params NewQueryBuilder).baseQuery.query
        ("SELECT DISTINCT ON (" ++ builder.getDeduplicationKey ++ ")") = true) ∧
    ∀ {α : Type} (aggregate : List EventRow → α) (p : EventRow → Bool)
      (s : List EventRow) (r : EventRow), r ∈ s →
      aggregate (dedupRows ((s ++ [r]).filter p)) = aggregate (dedupRows (s.filter p)) := by
  refine ⟨rfl, ?_, ?_⟩
  · intro ctx params
    show strHasInfix (builder.baseQueryText
      (joinSep " AND " (builder.baseConditionsArgs ctx params).1)) _ = true
    unfold builder.baseQueryText
    apply strHasInfix_append_left
    apply strHasInfix_append_left
    apply strHasInfix_append_left
    apply strHasInfix_append_left
    decide
  · intro α aggregate p s r hr
    rw [dedup_filter_replay p s r hr]

/-- Witness for C7: counting over a store holding a duplicate delivery of
`c7Row` equals counting over the store holding it once. -/
theorem C7_dedup_idempotent_witness :
    List.length (dedupRows (([c7Row] ++ [c7Row]).filter (fun _ => true))) =
      List.length (dedupRows ([c7Row].filter (fun _ => true))) :=
  C7_dedup_idempotent.2.2 List.length (fun _ => true) [c7Row] c7Row (by decide)

theorem builder_timeConds_start_iff (params : UsageParams) (i : Nat) :
    (∃ k, "timestamp >= toDateTime64(" ++ ph k ++ ", 3)" ∈
      (builder.parseTimeConditionsWithIndex params i).1) ↔
    params.startTime.isZero = false := by
  unfold builder.parseTimeConditionsWithIndex
  cases hs : params.startTime.isZero <;> cases he : params.endTime.isZero <;>
    simp [hs, he]
  · exact ⟨i, Or.inl rfl⟩
  · exact fun x => ne_of_pfx_diff (isTSpfx x) (notTSpfx_end i)

theorem builder_timeConds_end_iff (params : UsageParams) (i : Nat) :
    (∃ k, "timestamp < toDateTime64(" ++ ph k ++ ", 3)" ∈
      (builder.parseTimeConditionsWithIndex params i).1) ↔
    params.endTime.isZero = false := by
  unfold builder.parseTimeConditionsWithIndex
  cases hs : params.startTime.isZero <;> cases he : params.endTime.isZero <;>
    simp [hs, he]
  · exact ⟨i + 1, Or.inr rfl⟩
  · exact fun x => ne_of_pfx_diff (isTEpfx x) (notTEpfx_start i)

theorem legacy_timeConds_start_iff (params : UsageParams) :
    ("timestamp >= toDateTime64(?, 3)" ∈ (legacy.parseTimeConditions params).1) ↔
    params.startTime.isZero = false := by
  unfold legacy.parseTimeConditions
  cases hs : params.startTime.isZero <;> cases he : params.endTime.isZero <;>
    simp [hs, he]

theorem legacy_timeConds_end_iff (params : UsageParams) :
    ("timestamp < toDateTime64(?, 3)" ∈ (legacy.parseTimeConditions params).1) ↔
    params.endTime.isZero = false := by
  unfold legacy.parseTimeConditions
  cases hs : params.startTime.isZero <;> cases he : params.endTime.isZero <;>
    simp [hs, he]

theorem builder_timeArgs_eq (params : UsageParams) (i : Nat) :
    (builder.parseTimeConditionsWithIndex params i).2.1 =
      (if params.startTime.isZero then [] else [Arg.time params.startTime]) ++
      (if params.endTime.isZero then [] else [Arg.time params.endTime]) := by
  unfold builder.parseTimeConditionsWithIndex
  cases hs : params.startTime.isZero <;> cases he : params.endTime.isZero <;>
    simp [hs, he]

theorem legacy_timeArgs_eq (params : UsageParams) :
    (legacy.parseTimeConditions params).2 =
      (if params.startTime.isZero then []
        else [Arg.str (formatClickHouseDateTime params.startTime)]) ++
      (if params.endTime.isZero then []
        else [Arg.str (formatClickHouseDateTime params.endTime)]) := by
  unfold legacy.parseTimeConditions
  cases hs : params.startTime.isZero <;> cases he : params.endTime.isZero <;>
    simp [hs, he]

/-- Claim C8 counterexample: the claim is false on the legacy
`parseTimeConditions` its sources cite — the start bound is placed in the
argument list as the pre-formatted string `2024-01-01 00:00:00.000`
(produced by `formatClickHouseDateTime`), not as a store-native time value:
no argument of the fragment is a native time. -/
theorem C8_counterexample :
    (legacy.parseTimeConditions c8Params).2 = [Arg.str "2024-01-01 00:00:00.000"] ∧
    ((legacy.parseTimeConditions c8Params).2).all (fun a => !a.isNativeTime) = true ∧
    Arg.str (formatClickHouseDateTime c8Params.startTime) ∈
      (legacy.parseTimeConditions c8Params).2 := by
  exact ⟨by decide, by decide, by decide⟩

/-- Claim C8 (amended): in both builders the base fragment contains a
`timestamp >= bound` condition exactly when the start time is set and a
`timestamp < bound` condition exactly when the end time is set; the indexed
builder passes every bound as a store-native time value, while the legacy
builder passes each bound as the pre-formatted millisecond UTC string
`formatClickHouseDateTime` produces (the original claim's "store-native,
never pre-formatted" holds only for the indexed variant). -/
theorem C8_time_bounds (params : UsageParams) (i : Nat) :
    ((∃ k, "timestamp >= toDateTime64(" ++ ph k ++ ", 3)" ∈
        (builder.parseTimeConditionsWithIndex params i).1) ↔
      params.startTime.isZero = false) ∧
    ((∃ k, "timestamp < toDateTime64(" ++ ph k ++ ", 3)" ∈
        (builder.parseTimeConditionsWithIndex params i).1) ↔
      params.endTime.isZero = false) ∧
    (builder.parseTimeConditionsWithIndex params i).2.1 =
      (if params.startTime.isZero then [] else [Arg.time params.startTime]) ++
      (if params.endTime.isZero then [] else [Arg.time params.endTime]) ∧
    ((builder.parseTimeConditionsWithIndex params i).2.1).all Arg.isNativeTime = true ∧
    (("timestamp >= toDateTime64(?, 3)" ∈ (legacy.parseTimeConditions params).1) ↔
      params.startTime.isZero = false) ∧
    (("timestamp < toDateTime64(?, 3)" ∈ (legacy.parseTimeConditions params).1) ↔
      params.endTime.isZero = false) ∧
    (legacy.parseTimeConditions params).2 =
      (if params.startTime.isZero then []
        else [Arg.str (formatClickHouseDateTime params.startTime)]) ++
      (if params.endTime.isZero then []
        else [Arg.str (formatClickHouseDateTime params.endTime)]) := by
  refine ⟨builder_timeConds_start_iff params i, builder_timeConds_end_iff params i,
    builder_timeArgs_eq params i, ?_, legacy_timeConds_start_iff params,
    legacy_timeConds_end_iff params, legacy_timeArgs_eq params⟩
  rw [builder_timeArgs_eq params i]
  cases hs : params.startTime.isZero <;> cases he : params.endTime.isZero <;>
    simp [Arg.isNativeTime]

/-- Claim C9 counterexample: the claim is false on the code.  `c9FiltersA`
and `c9FiltersB` are the same Go map `{a: [v], b: [w]}` under its two
possible `range` iteration orders (Go specifies no order and randomizes it),
yet the legacy builder emits different statement texts and the indexed
builder emits different argument orders — so two compilations of the same
UsageQuery need not return identical text and argument lists. -/
theorem C9_counterexample :
    c9FiltersA.Perm c9FiltersB ∧
    (legacy.WithBaseFilters ⟨"", ""⟩ (c9Params c9FiltersA) NewQueryBuilder).baseQuery.query ≠
      (legacy.WithBaseFilters ⟨"", ""⟩ (c9Params c9FiltersB) NewQueryBuilder).baseQuery.query ∧
    (builder.WithBaseFilters ⟨"", ""⟩ (c9Params c9FiltersA) NewQueryBuilder).baseQuery.args ≠
      (builder.WithBaseFilters ⟨"", ""⟩ (c9Params c9FiltersB) NewQueryBuilder).baseQuery.args := by
  exact ⟨by decide, by decide, by decide⟩

/-- Claim C9 (amended): compilation is a pure function of its inputs plus
the filter map's iteration order, which Go leaves unspecified; what is
order-independent is the argument multiset — permuting the filter entries
permutes the emitted argument list without changing its contents, since each
entry's argument block does not depend on the running placeholder index. -/
theorem C9_args_perm_invariant (ctx : Context) (params : UsageParams)
    (f1 f2 : List (String × List String)) (h : f1.Perm f2) :
    ((builder.WithBaseFilters ctx { params with filters := f1 }
      NewQueryBuilder).baseQuery.args).Perm
    ((builder.WithBaseFilters ctx { params with filters := f2 }
      NewQueryBuilder).baseQuery.args) := by
  show ((builder.baseConditionsArgs ctx _).2.1).Perm ((builder.baseConditionsArgs ctx _).2.1)
  rw [(builder_baseConds_shape ctx _).2, (builder_baseConds_shape ctx _).2]
  unfold expectedBaseArgs filterArgsSpec
  exact List.Perm.append_left _ (h.flatMap_right filterArgBlock)

/-- Witness for C9: the amended claim at the two iteration orders of
`{a: [v], b: [w]}`. -/
theorem C9_args_perm_invariant_witness :
    ((builder.WithBaseFilters ⟨"", ""⟩ (c9Params c9FiltersA)
      NewQueryBuilder).baseQuery.args).Perm
    ((builder.WithBaseFilters ⟨"", ""⟩ (c9Params c9FiltersB)
      NewQueryBuilder).baseQuery.args) :=
  C9_args_perm_invariant ⟨"", ""⟩ (c9Params c9FiltersA) c9FiltersA c9FiltersB (by decide)

/-- Claim C10 (confirmed): in both builders the base fragment carries a
`tenant_id = ?k` equality exactly when the caller's context yields a
non-empty tenant id, and an `environment_id = ?k` equality exactly when it
yields a non-empty environment id; with an empty value the compiled
conditions silently contain no such restriction at all (the builders are
total functions — compilation never fails). -/
theorem C10_tenant_env_conditions (ctx : Context) (params : UsageParams) :
    ((∃ k, "tenant_id = " ++ ph k ∈ (builder.baseConditionsArgs ctx params).1) ↔
      ctx.tenantID ≠ "") ∧
    ((∃ k, "environment_id = " ++ ph k ∈ (builder.baseConditionsArgs ctx params).1) ↔
      ctx.environmentID ≠ "") ∧
    ((∃ k, "tenant_id = " ++ ph k ∈ (legacy.baseConditionsArgs ctx params).1) ↔
      ctx.tenantID ≠ "") ∧
    ((∃ k, "environment_id = " ++ ph k ∈ (legacy.baseConditionsArgs ctx params).1) ↔
      ctx.environmentID ≠ "") := by
  refine ⟨⟨?_, ?_⟩, ⟨?_, ?_⟩, ⟨?_, ?_⟩, ⟨?_, ?_⟩⟩
  · rintro ⟨k, hk⟩
    by_contra h0
    have := List.all_eq_true.1
      (builder_baseConds_all_notT ctx params h0) _ hk
    rw [isT_self k] at this
    simp at this
  · intro h; exact ⟨2, builder_baseConds_mem_tenant ctx params h⟩
  · rintro ⟨k, hk⟩
    by_contra h0
    have := List.all_eq_true.1
      (builder_baseConds_all_notE ctx params h0) _ hk
    rw [isE_self k] at this
    simp at this
  · exact fun h => builder_baseConds_mem_env ctx params h
  · rintro ⟨k, hk⟩
    by_contra h0
    have := List.all_eq_true.1
      (legacy_baseConds_all_notT ctx params h0) _ hk
    rw [isT_self k] at this
    simp at this
  · intro h; exact ⟨2, legacy_baseConds_mem_tenant ctx params h⟩
  · rintro ⟨k, hk⟩
    by_contra h0
    have := List.all_eq_true.1
      (legacy_baseConds_all_notE ctx params h0) _ hk
    rw [isE_self k] at this
    simp at this
  · exact fun h => legacy_baseConds_mem_env ctx params h
